import Mathlib

/-!
# MMapManager: on-demand navigation-mesh registry

A shallow embedding of `src/server/collision/Management/MMapManager.cpp`.

The manager is a table of loaded maps (regions), each holding a pointer to a
Detour navigation mesh, the set of tiles that were inserted into it and the
query objects handed out per instance, together with a global count of loaded
tiles.  Every member function is a pure function from the manager's state and
the outcomes of the external calls it makes (files, allocator, Detour) to a
`Run`: the external calls it made in order, the state at the end, and the value
returned (or the fact that an `ASSERT` ended the process).
-/

set_option autoImplicit false

namespace MMAP

/-! ## Values exchanged with the outside -/

/-- A non-null address handed out by an allocator.  Allocators return
`Option Ptr`, where `none` is `NULL`. -/
abbrev Ptr := Nat

/-- The tile reference `dtTileRef` that Detour returns from `addTile`. -/
abbrev dtTileRef := Nat

/-- Modelled from the spec: Detour's status word and the two tests
`dtStatusFailed` and `dtStatusSucceed` on it are declared in the navigation
library, not under src/.  The spec only speaks of an operation failing or
succeeding, so a status is taken as the pair of answers to the two tests. -/
structure dtStatus where
  failed : Bool
  succeed : Bool
deriving DecidableEq, Repr

/-- The test `dtStatusFailed(status)`. -/
def dtStatusFailed (st : dtStatus) : Bool := st.failed

/-- The test `dtStatusSucceed(status)`. -/
def dtStatusSucceed (st : dtStatus) : Bool := st.succeed

/-- Modelled from the spec: `dtNavMeshParams`, the fixed-size record read from
a map's `.mmap` file, is "an opaque blob read in full or rejected". -/
structure dtNavMeshParams where
  raw : List Nat
deriving DecidableEq, Repr

/-- Modelled from the spec: `MmapTileHeader` is declared in MMapManager.h, not
under src/.  Only the three fields that `loadMap` reads are kept. -/
structure MmapTileHeader where
  mmapMagic : Nat
  mmapVersion : Nat
  size : Nat
deriving DecidableEq, Repr

/-- Modelled from the spec: the constants `MMAP_MAGIC` and `MMAP_VERSION` are
defined in MMapManager.h, not under src/; they are "fixed constants" and are
taken as parameters. -/
structure Consts where
  MMAP_MAGIC : Nat
  MMAP_VERSION : Nat
deriving DecidableEq, Repr

/-- A `.mmtile` file as `loadMap` sees it: the header when one full
`MmapTileHeader` can be read, the number of bytes that follow the header, and
the `x`, `y` fields of the `dtMeshHeader` at the start of the payload (only
echoed in a log line). -/
structure TileFile where
  header : Option MmapTileHeader
  rest : Nat
  echoX : Int
  echoY : Int
deriving DecidableEq, Repr

/-- The value of `fread(data, size, 1, file)` on the payload: one item when the
item is non-empty and the file still holds `size` bytes, zero items otherwise. -/
def TileFile.freadPayload (f : TileFile) (size : Nat) : Nat :=
  if size ≠ 0 ∧ size ≤ f.rest then 1 else 0

/-! ## Containers -/

/-- Modelled from the spec: the container types `MMapDataSet`, `MMapTileSet`
and `NavMeshQuerySet` are typedefs of MMapManager.h, not under src/; the spec
calls each of them a mapping from an unsigned 32-bit key.  A mapping is a list
of key-value pairs; the order of the list is the order in which a loop over
the container visits the entries. -/
abbrev Table (V : Type) := List (Nat × V)

namespace Table

variable {V : Type}

/-- The member `find(k)`: the value stored under `k`, or `none` for `end()`. -/
def find : Table V → Nat → Option V
  | [], _ => none
  | (k', v) :: t, k => if k' = k then some v else find t k

/-- The member `insert(pair(k, v))`: adds the pair unless the key is there. -/
def insert (t : Table V) (k : Nat) (v : V) : Table V :=
  match find t k with
  | some _ => t
  | none => (k, v) :: t

/-- The member `erase(k)`: removes what is stored under `k`. -/
def erase : Table V → Nat → Table V
  | [], _ => []
  | (k', v) :: t, k => if k' = k then erase t k else (k', v) :: erase t k

/-- A write through the pointer obtained from `table[k]`: the value found
under `k` is replaced in place. -/
def assign : Table V → Nat → V → Table V
  | [], _, _ => []
  | (k', v') :: t, k, v => if k' = k then (k, v) :: t else (k', v') :: assign t k v

end Table

/-! ## The manager's state -/

/-- The type `MMapTileSet`: packed tile coordinate to tile reference. -/
abbrev MMapTileSet := Table dtTileRef

/-- The type `NavMeshQuerySet`: instance id to query object. -/
abbrev NavMeshQuerySet := Table Ptr

/-- The class `MMapData`: one loaded map.  The mesh pointer is never null: the
only constructor call is `new MMapData(mesh)` after `ASSERT(mesh)`. -/
structure MMapData where
  navMesh : Ptr
  mmapLoadedTiles : MMapTileSet
  navMeshQueries : NavMeshQuerySet
deriving DecidableEq, Repr

/-- The type `MMapDataSet`: map id to its `MMapData`. -/
abbrev MMapDataSet := Table MMapData

/-- Modelled from the spec: the data members of `MMapManager` are declared in
MMapManager.h, not under src/.  `loadedMMaps` is the table of loaded maps and
`loadedTiles` "a running counter of total loaded tiles across all regions"; the
counter is an integer on which `++` adds one and `--` subtracts one. -/
structure MMapManager where
  loadedMMaps : MMapDataSet
  loadedTiles : Int
deriving DecidableEq, Repr

/-! ## External calls -/

/-- The two kinds of file the manager opens. -/
inductive FileName where
  | mmap (mapId : Nat)
  | mmtile (mapId : Nat) (x y : Int)
deriving DecidableEq, Repr

/-- The log lines of the manager, one constructor per `sLog->outInfo` call of
the source, carrying the arguments that the call formats. -/
inductive LogMsg where
  | loadMapDataCouldNotOpen (mapId : Nat)
  | loadMapDataCouldNotRead (mapId : Nat)
  | loadMapDataInitFailed (mapId : Nat)
  | loadMapDataLoaded (mapId : Nat)
  | loadMapCouldNotOpen (mapId : Nat) (x y : Int)
  | loadMapBadHeader (mapId : Nat) (x y : Int)
  | loadMapVersion (mapId : Nat) (x y : Int) (found expected : Nat)
  | loadMapBadData (mapId : Nat) (x y : Int)
  | loadMapLoaded (mapId : Nat) (x y : Int) (echoX echoY : Int)
  | loadMapCouldNotLoad (mapId : Nat) (x y : Int)
  | unloadMapNotLoadedMap (mapId : Nat) (x y : Int)
  | unloadMapNotLoadedTile (mapId : Nat) (x y : Int)
  | unloadMapCouldNotUnload (mapId : Nat) (x y : Int)
  | unloadMapUnloadedTile (mapId : Nat) (x y : Int)
  | unloadMapNotLoaded (mapId : Nat)
  | unloadMapUnloaded (mapId : Nat)
  | unloadMapInstanceNotLoadedMap (mapId : Nat)
  | unloadMapInstanceNotLoadedQuery (mapId instanceId : Nat)
  | unloadMapInstanceUnloaded (mapId instanceId : Nat)
  | getNavMeshQueryInitFailed (mapId instanceId : Nat)
  | getNavMeshQueryCreated (mapId instanceId : Nat)
deriving DecidableEq, Repr

/-- One call that leaves the manager, in the order the source makes them. -/
inductive Event where
  | fopen (f : FileName)
  | fclose (f : FileName)
  | dtAllocNavMesh (mesh : Option Ptr)
  | navMeshInit (mesh : Ptr) (params : dtNavMeshParams) (st : dtStatus)
  | dtFreeNavMesh (mesh : Ptr)
  | dtAlloc (size : Nat) (data : Option Ptr)
  | dtFree (data : Ptr)
  | addTile (mesh : Ptr) (data : Ptr) (size : Nat) (st : dtStatus) (tileRef : dtTileRef)
  | removeTile (mesh : Ptr) (tileRef : dtTileRef) (st : dtStatus)
  | deleteMMapData (mmap : MMapData)
  | dtAllocNavMeshQuery (query : Option Ptr)
  | queryInit (query : Ptr) (mesh : Ptr) (maxNodes : Nat) (st : dtStatus)
  | dtFreeNavMeshQuery (query : Ptr)
  | log (m : LogMsg)
  | assertFailed
deriving DecidableEq, Repr

/-- Modelled from the spec: the macro `ASSERT` is not under src/; a failed
assertion is "assert-style fail-fast": it ends the process.  A run therefore
ends either with a returned value (`ret = some v`) or at a failed `ASSERT`
(`ret = none`), and `state` is the manager's state at that point. -/
structure Run (α : Type) where
  events : List Event
  state : MMapManager
  ret : Option α
deriving DecidableEq, Repr

/-! ## Outcomes of the external calls of one member-function call -/

/-- What `loadMapData` meets outside the manager: `file` is `none` when `fopen`
of the `.mmap` file fails, `some none` when the file opens but `fread` does not
deliver one full `dtNavMeshParams`, `some (some p)` when it delivers `p`;
`mesh` is the result of `dtAllocNavMesh()`; `init` is the status of
`mesh->init(&params)`. -/
structure MapDataEnv where
  file : Option (Option dtNavMeshParams)
  mesh : Option Ptr
  init : dtStatus
deriving DecidableEq, Repr

/-- What `loadMap` meets outside the manager after `loadMapData`: `file` is the
result of `fopen` of the `.mmtile` file, `data` the result of `dtAlloc`,
`addTile` the status of `navMesh->addTile(...)` and `tileRef` the reference it
stores through its last argument. -/
structure TileEnv where
  file : Option TileFile
  data : Option Ptr
  addTile : dtStatus
  tileRef : dtTileRef
deriving DecidableEq, Repr

/-- What `GetNavMeshQuery` meets outside the manager: the result of
`dtAllocNavMeshQuery()` and the status of `query->init(navMesh, 1024)`. -/
structure QueryEnv where
  query : Option Ptr
  init : dtStatus
deriving DecidableEq, Repr

/-! ## Member functions -/

/-- The bit pattern of an `int32` read as `uint32`. -/
def toUInt32 (x : Int) : Nat := (x % 4294967296).toNat

namespace MMapManager

/-- The function `MMapManager::loadMapData(mapId)`, lines 34-83. -/
def loadMapData (env : MapDataEnv) (s : MMapManager) (mapId : Nat) : Run Bool :=
  match s.loadedMMaps.find mapId with
  | some _ => ⟨[], s, some true⟩
  | none =>
    match env.file with
    | none =>
      ⟨[.fopen (.mmap mapId), .log (.loadMapDataCouldNotOpen mapId)], s, some false⟩
    | some none =>
      ⟨[.fopen (.mmap mapId), .fclose (.mmap mapId),
        .log (.loadMapDataCouldNotRead mapId)], s, some false⟩
    | some (some params) =>
      match env.mesh with
      | none =>
        ⟨[.fopen (.mmap mapId), .fclose (.mmap mapId), .dtAllocNavMesh none,
          .assertFailed], s, none⟩
      | some mesh =>
        if dtStatusFailed env.init then
          ⟨[.fopen (.mmap mapId), .fclose (.mmap mapId), .dtAllocNavMesh (some mesh),
            .navMeshInit mesh params env.init, .dtFreeNavMesh mesh,
            .log (.loadMapDataInitFailed mapId)], s, some false⟩
        else
          ⟨[.fopen (.mmap mapId), .fclose (.mmap mapId), .dtAllocNavMesh (some mesh),
            .navMeshInit mesh params env.init, .log (.loadMapDataLoaded mapId)],
           { loadedMMaps := s.loadedMMaps.insert mapId ⟨mesh, [], []⟩,
             loadedTiles := s.loadedTiles },
           some true⟩

/-- The function `MMapManager::packTileID(x, y)`, lines 85-88:
`uint32(x << 16 | y)` on the 32-bit patterns of `x` and `y`. -/
def packTileID (x y : Int) : Nat :=
  ((toUInt32 x <<< 16) ||| toUInt32 y) % 4294967296

/-- The part of `loadMap` after the already-loaded check, lines 105-169: open
and check the tile file, read the payload and hand it to the mesh.  `pre` are
the calls made so far, `s` the state and `mmap` the record of `mapId`. -/
def loadMapTile (k : Consts) (tenv : TileEnv) (pre : List Event) (s : MMapManager)
    (mmap : MMapData) (mapId : Nat) (x y : Int) : Run Bool :=
  match tenv.file with
  | none =>
    ⟨pre ++ [.fopen (.mmtile mapId x y), .log (.loadMapCouldNotOpen mapId x y)],
     s, some false⟩
  | some file =>
    match file.header with
    | none =>
      ⟨pre ++ [.fopen (.mmtile mapId x y), .log (.loadMapBadHeader mapId x y),
               .fclose (.mmtile mapId x y)], s, some false⟩
    | some fileHeader =>
      if fileHeader.mmapMagic ≠ k.MMAP_MAGIC then
        ⟨pre ++ [.fopen (.mmtile mapId x y), .log (.loadMapBadHeader mapId x y),
                 .fclose (.mmtile mapId x y)], s, some false⟩
      else if fileHeader.mmapVersion ≠ k.MMAP_VERSION then
        ⟨pre ++ [.fopen (.mmtile mapId x y),
                 .log (.loadMapVersion mapId x y fileHeader.mmapVersion k.MMAP_VERSION),
                 .fclose (.mmtile mapId x y)], s, some false⟩
      else
        match tenv.data with
        | none =>
          ⟨pre ++ [.fopen (.mmtile mapId x y), .dtAlloc fileHeader.size none,
                   .assertFailed], s, none⟩
        | some data =>
          if file.freadPayload fileHeader.size = 0 then
            ⟨pre ++ [.fopen (.mmtile mapId x y), .dtAlloc fileHeader.size (some data),
                     .log (.loadMapBadData mapId x y), .fclose (.mmtile mapId x y)],
             s, some false⟩
          else if dtStatusSucceed tenv.addTile then
            ⟨pre ++ [.fopen (.mmtile mapId x y), .dtAlloc fileHeader.size (some data),
                     .fclose (.mmtile mapId x y),
                     .addTile mmap.navMesh data fileHeader.size tenv.addTile tenv.tileRef,
                     .log (.loadMapLoaded mapId x y file.echoX file.echoY)],
             { loadedMMaps := s.loadedMMaps.assign mapId
                 { mmap with mmapLoadedTiles :=
                     mmap.mmapLoadedTiles.insert (packTileID x y) tenv.tileRef },
               loadedTiles := s.loadedTiles + 1 },
             some true⟩
          else
            ⟨pre ++ [.fopen (.mmtile mapId x y), .dtAlloc fileHeader.size (some data),
                     .fclose (.mmtile mapId x y),
                     .addTile mmap.navMesh data fileHeader.size tenv.addTile tenv.tileRef,
                     .log (.loadMapCouldNotLoad mapId x y), .dtFree data],
             s, some false⟩

/-- The function `MMapManager::loadMap(basePath, mapId, x, y)`, lines 90-169.
`loadedMMaps[mapId]` after a successful `loadMapData` always finds the record
(`loadMapData_find_of_ret_true`); were it absent, the subscript would yield a
null record and the process would end at line 98. -/
def loadMap (k : Consts) (menv : MapDataEnv) (tenv : TileEnv) (s : MMapManager)
    (mapId : Nat) (x y : Int) : Run Bool :=
  let r := loadMapData menv s mapId
  match r.ret with
  | none => r
  | some false => ⟨r.events, r.state, some false⟩
  | some true =>
    match r.state.loadedMMaps.find mapId with
    | none => ⟨r.events ++ [.assertFailed], r.state, none⟩
    | some mmap =>
      match mmap.mmapLoadedTiles.find (packTileID x y) with
      | some _ => ⟨r.events, r.state, some false⟩
      | none => loadMapTile k tenv r.events r.state mmap mapId x y

/-- The function `MMapManager::unloadMap(mapId, x, y)`, lines 171-212.  `rm` is
the status of `navMesh->removeTile(tileRef, NULL, NULL)`. -/
def unloadMap (rm : dtStatus) (s : MMapManager) (mapId : Nat) (x y : Int) : Run Bool :=
  match s.loadedMMaps.find mapId with
  | none => ⟨[.log (.unloadMapNotLoadedMap mapId x y)], s, some false⟩
  | some mmap =>
    match mmap.mmapLoadedTiles.find (packTileID x y) with
    | none => ⟨[.log (.unloadMapNotLoadedTile mapId x y)], s, some false⟩
    | some tileRef =>
      if dtStatusFailed rm then
        ⟨[.removeTile mmap.navMesh tileRef rm, .log (.unloadMapCouldNotUnload mapId x y),
          .assertFailed], s, none⟩
      else
        ⟨[.removeTile mmap.navMesh tileRef rm, .log (.unloadMapUnloadedTile mapId x y)],
         { loadedMMaps := s.loadedMMaps.assign mapId
             { mmap with mmapLoadedTiles := mmap.mmapLoadedTiles.erase (packTileID x y) },
           loadedTiles := s.loadedTiles - 1 },
         some true⟩

/-- The loop of `unloadMap(mapId)`, lines 225-236, over the entries that are
still to be visited.  `rm i` is the status of the `i`-th `removeTile` call of
the whole loop, `i` the number of calls already made and `n` the value of
`loadedTiles`; the result is the calls made and the final `loadedTiles`. -/
def unloadMapLoop (mapId : Nat) (mesh : Ptr) (rm : Nat → dtStatus) :
    List (Nat × dtTileRef) → Nat → Int → List Event × Int
  | [], _, n => ([], n)
  | (key, tileRef) :: rest, i, n =>
    let x : Nat := key >>> 16
    let y : Nat := key &&& 0x0000FFFF
    if dtStatusFailed (rm i) then
      let r := unloadMapLoop mapId mesh rm rest (i + 1) n
      (.removeTile mesh tileRef (rm i) :: .log (.unloadMapCouldNotUnload mapId x y) :: r.1,
       r.2)
    else
      let r := unloadMapLoop mapId mesh rm rest (i + 1) (n - 1)
      (.removeTile mesh tileRef (rm i) :: .log (.unloadMapUnloadedTile mapId x y) :: r.1,
       r.2)

/-- The overload `MMapManager::unloadMap(mapId)`, lines 214-243, which unloads
a whole map. -/
def unloadMapAll (rm : Nat → dtStatus) (s : MMapManager) (mapId : Nat) : Run Bool :=
  match s.loadedMMaps.find mapId with
  | none => ⟨[.log (.unloadMapNotLoaded mapId)], s, some false⟩
  | some mmap =>
    let r := unloadMapLoop mapId mmap.navMesh rm mmap.mmapLoadedTiles 0 s.loadedTiles
    ⟨r.1 ++ [.deleteMMapData mmap, .log (.unloadMapUnloaded mapId)],
     { loadedMMaps := s.loadedMMaps.erase mapId, loadedTiles := r.2 },
     some true⟩

/-- The function `MMapManager::unloadMapInstance(mapId, instanceId)`,
lines 245-269. -/
def unloadMapInstance (s : MMapManager) (mapId instanceId : Nat) : Run Bool :=
  match s.loadedMMaps.find mapId with
  | none => ⟨[.log (.unloadMapInstanceNotLoadedMap mapId)], s, some false⟩
  | some mmap =>
    match mmap.navMeshQueries.find instanceId with
    | none =>
      ⟨[.log (.unloadMapInstanceNotLoadedQuery mapId instanceId)], s, some false⟩
    | some query =>
      ⟨[.dtFreeNavMeshQuery query, .log (.unloadMapInstanceUnloaded mapId instanceId)],
       { loadedMMaps := s.loadedMMaps.assign mapId
           { mmap with navMeshQueries := mmap.navMeshQueries.erase instanceId },
         loadedTiles := s.loadedTiles },
       some true⟩

/-- The function `MMapManager::GetNavMesh(mapId)`, lines 271-277; `none` is
`NULL`. -/
def GetNavMesh (s : MMapManager) (mapId : Nat) : Option Ptr :=
  match s.loadedMMaps.find mapId with
  | none => none
  | some mmap => some mmap.navMesh

/-- The function `MMapManager::GetNavMeshQuery(mapId, instanceId)`,
lines 279-302; a returned `none` is `NULL`. -/
def GetNavMeshQuery (env : QueryEnv) (s : MMapManager) (mapId instanceId : Nat) :
    Run (Option Ptr) :=
  match s.loadedMMaps.find mapId with
  | none => ⟨[], s, some none⟩
  | some mmap =>
    match mmap.navMeshQueries.find instanceId with
    | some query => ⟨[], s, some (some query)⟩
    | none =>
      match env.query with
      | none => ⟨[.dtAllocNavMeshQuery none, .assertFailed], s, none⟩
      | some query =>
        if dtStatusFailed env.init then
          ⟨[.dtAllocNavMeshQuery (some query), .queryInit query mmap.navMesh 1024 env.init,
            .dtFreeNavMeshQuery query,
            .log (.getNavMeshQueryInitFailed mapId instanceId)], s, some none⟩
        else
          ⟨[.dtAllocNavMeshQuery (some query), .queryInit query mmap.navMesh 1024 env.init,
            .log (.getNavMeshQueryCreated mapId instanceId)],
           { loadedMMaps := s.loadedMMaps.assign mapId
               { mmap with navMeshQueries := mmap.navMeshQueries.insert instanceId query },
             loadedTiles := s.loadedTiles },
           some ((mmap.navMeshQueries.insert instanceId query).find instanceId)⟩

end MMapManager

/-! ## Concrete inputs -/

/-- A status that is a success and not a failure. -/
def stOk : dtStatus := ⟨false, true⟩

/-- A status that is a failure and not a success. -/
def stFail : dtStatus := ⟨true, false⟩

/-- Sample values of the two header constants. -/
def kSample : Consts := ⟨0x4d4d4150, 4⟩

/-- A readable `.mmap` file, a mesh at address 100 and a successful `init`. -/
def menvGood : MapDataEnv := ⟨some (some ⟨[1, 2, 3]⟩), some 100, stOk⟩

/-- No `.mmap` file at all. -/
def menvNoFile : MapDataEnv := ⟨none, none, stFail⟩

/-- A well-formed tile file with an 8-byte payload, a buffer at address 200
and an insertion that succeeds and returns the reference 9. -/
def tenvGood : TileEnv := ⟨some ⟨some ⟨0x4d4d4150, 4, 8⟩, 8, 5, 7⟩, some 200, stOk, 9⟩

/-- No tile file, no memory, and a mesh that refuses every tile. -/
def tenvNoFile : TileEnv := ⟨none, none, stFail, 0⟩

/-- The manager right after construction. -/
def sEmpty : MMapManager := ⟨[], 0⟩

/-- A record with mesh 100 that holds the tile (5, 7) under reference 9 and the
query 300 of instance 1. -/
def dOneTile : MMapData := ⟨100, [(MMapManager.packTileID 5 7, 9)], [(1, 300)]⟩

/-- Map 1 is loaded with the record `dOneTile`; one tile is counted. -/
def sOneTile : MMapManager := ⟨[(1, dOneTile)], 1⟩

/-- Map 1 is loaded with mesh 100 and holds neither tiles nor queries. -/
def sNoTile : MMapManager := ⟨[(1, ⟨100, [], []⟩)], 0⟩

/-- The record of map 1 after tile (5, 7) was loaded into it from `tenvGood`. -/
def dLoaded : MMapData := ⟨100, [(MMapManager.packTileID 5 7, 9)], []⟩

/-- The manager after `loadMap` of tile (5, 7) of map 1 on the empty manager. -/
def sLoaded : MMapManager := ⟨[(1, dLoaded)], 1⟩

/-- The tile entries held for a map: those of its record, none when the map
has no record. -/
def loadedTilesOf (s : MMapManager) (mapId : Nat) : MMapTileSet :=
  match s.loadedMMaps.find mapId with
  | none => []
  | some mmap => mmap.mmapLoadedTiles

/-- Every query object that the manager holds, over all maps and instances. -/
def queryHandles (s : MMapManager) : List Ptr :=
  s.loadedMMaps.flatMap (fun e => e.2.navMeshQueries.map Prod.snd)

/-- The tile references passed to `removeTile`, in the order of the calls. -/
def removeTileCalls (events : List Event) : List dtTileRef :=
  events.filterMap fun e =>
    match e with
    | .removeTile _ tileRef _ => some tileRef
    | _ => none

/-- The payload buffers that the calls obtained from `dtAlloc`. -/
def allocatedBuffers (events : List Event) : List Ptr :=
  events.filterMap fun e =>
    match e with
    | .dtAlloc _ (some data) => some data
    | _ => none

/-- The payload buffers that a successful `addTile` took over: with
`DT_TILE_FREE_DATA` the mesh owns the buffer from then on. -/
def buffersOwnedByMesh (events : List Event) : List Ptr :=
  events.filterMap fun e =>
    match e with
    | .addTile _ data _ st _ => if dtStatusSucceed st then some data else none
    | _ => none

/-- The payload buffers that the calls released with `dtFree`. -/
def releasedBuffers (events : List Event) : List Ptr :=
  events.filterMap fun e =>
    match e with
    | .dtFree data => some data
    | _ => none

/-- The payload buffers that were allocated and then neither handed to the mesh
nor released. -/
def leakedBuffers (events : List Event) : List Ptr :=
  (allocatedBuffers events).filter fun data =>
    !(buffersOwnedByMesh events).contains data && !(releasedBuffers events).contains data

/-- One call of a public member function together with the outcomes of the
external calls it may make. -/
inductive Op where
  | loadMapData (env : MapDataEnv) (mapId : Nat)
  | loadMap (menv : MapDataEnv) (tenv : TileEnv) (mapId : Nat) (x y : Int)
  | unloadMap (rm : dtStatus) (mapId : Nat) (x y : Int)
  | unloadMapAll (rm : Nat → dtStatus) (mapId : Nat)
  | GetNavMeshQuery (env : QueryEnv) (mapId instanceId : Nat)
  | unloadMapInstance (mapId instanceId : Nat)

/-- The map that a call is about. -/
def Op.mapId : Op → Nat
  | .loadMapData _ mapId => mapId
  | .loadMap _ _ mapId _ _ => mapId
  | .unloadMap _ mapId _ _ => mapId
  | .unloadMapAll _ mapId => mapId
  | .GetNavMeshQuery _ mapId _ => mapId
  | .unloadMapInstance mapId _ => mapId

/-- A run without its returned value: only whether the call returned. -/
def Run.returned {α : Type} (r : Run α) : Run Unit :=
  ⟨r.events, r.state, r.ret.map fun _ => ()⟩

/-- The run of one call. -/
def Op.run (k : Consts) : Op → MMapManager → Run Unit
  | .loadMapData env mapId, s => (MMapManager.loadMapData env s mapId).returned
  | .loadMap menv tenv mapId x y, s => (MMapManager.loadMap k menv tenv s mapId x y).returned
  | .unloadMap rm mapId x y, s => (MMapManager.unloadMap rm s mapId x y).returned
  | .unloadMapAll rm mapId, s => (MMapManager.unloadMapAll rm s mapId).returned
  | .GetNavMeshQuery env mapId instanceId, s =>
    (MMapManager.GetNavMeshQuery env s mapId instanceId).returned
  | .unloadMapInstance mapId instanceId, s =>
    (MMapManager.unloadMapInstance s mapId instanceId).returned

/-- A sequence of calls, one after the other, from the state `s`: the state at
the end, or `none` when one of the calls ends at a failed `ASSERT`. -/
def runOps (k : Consts) : List Op → MMapManager → Option MMapManager
  | [], s => some s
  | op :: ops, s =>
    match (op.run k s).ret with
    | none => none
    | some _ => runOps k ops (op.run k s).state

/-- The number of tile entries over the tile sets of all loaded maps. -/
def totalTiles (s : MMapManager) : Nat :=
  (s.loadedMMaps.map fun e => e.2.mmapLoadedTiles.length).sum

/-- Modelled from the spec: the Detour mesh is outside src/; the spec models a
mesh as the set of tile references currently inserted in it.  The effect of one
external call on that set: an `addTile` that reports success adds the returned
reference, a `removeTile` that does not fail deletes its reference, every other
call and every failure changes nothing. -/
def meshEvent (mesh : List dtTileRef) : Event → List dtTileRef
  | .addTile _ _ _ st tileRef => if dtStatusSucceed st then tileRef :: mesh else mesh
  | .removeTile _ tileRef st =>
    if dtStatusFailed st then mesh else mesh.filter fun r => r ≠ tileRef
  | _ => mesh

/-- The content of a mesh after a sequence of external calls on it. -/
def meshAfter (events : List Event) (mesh : List dtTileRef) : List dtTileRef :=
  events.foldl meshEvent mesh

/-- The content of the mesh of every map after one call, from the content `g`
before it.  Only the mesh of the call's map is touched; a map without a record
has no mesh, hence no tile in it. -/
def meshStep (k : Consts) (op : Op) (s : MMapManager) (g : Nat → List dtTileRef) :
    Nat → List dtTileRef :=
  fun m =>
    if m = op.mapId then
      match (op.run k s).state.loadedMMaps.find m with
      | none => []
      | some _ => meshAfter (op.run k s).events (g m)
    else g m

/-- A sequence of calls from the state `s` and the mesh contents `g`: the state
and the mesh contents at the end, or `none` at a failed `ASSERT`. -/
def runOpsMesh (k : Consts) :
    List Op → MMapManager → (Nat → List dtTileRef) →
      Option (MMapManager × (Nat → List dtTileRef))
  | [], s, g => some (s, g)
  | op :: ops, s, g =>
    match (op.run k s).ret with
    | none => none
    | some _ => runOpsMesh k ops (op.run k s).state (meshStep k op s g)

/-- The mesh hands out fresh references: the reference returned by an `addTile`
that reports success is not one of the tiles the mesh holds at that moment. -/
def freshTileRef (op : Op) (g : Nat → List dtTileRef) : Prop :=
  match op with
  | .loadMap _ tenv mapId _ _ => dtStatusSucceed tenv.addTile = true → tenv.tileRef ∉ g mapId
  | _ => True

/-- Every call of the sequence meets a mesh that hands out fresh references. -/
def freshTileRefs (k : Consts) : List Op → MMapManager → (Nat → List dtTileRef) → Prop
  | [], _, _ => True
  | op :: ops, s, g =>
    freshTileRef op g ∧ freshTileRefs k ops (op.run k s).state (meshStep k op s g)

/-- The mesh contents `g` agree with the state `s`: a map without a record has
no tile in a mesh, and for a loaded map the references stored in its tile set
are the references in its mesh, every key and every reference stored once. -/
def meshConsistent (s : MMapManager) (g : Nat → List dtTileRef) : Prop :=
  (∀ m, s.loadedMMaps.find m = none → g m = []) ∧
  (∀ m d, s.loadedMMaps.find m = some d →
    g m = d.mmapLoadedTiles.map Prod.snd ∧
    (d.mmapLoadedTiles.map Prod.fst).Nodup ∧ (d.mmapLoadedTiles.map Prod.snd).Nodup)

/-- The number of failing calls among `n` calls of `removeTile`, the first of
which is call number `i`. -/
def failedRemovals (rm : Nat → dtStatus) : Nat → Nat → Nat
  | _, 0 => 0
  | i, n + 1 => (if dtStatusFailed (rm i) then 1 else 0) + failedRemovals rm (i + 1) n

/-- The number of `removeTile` calls that fail inside one call: those of the
loop of `unloadMap(mapId)`; the other calls either make no such call or end at
the failed `ASSERT` of `unloadMap(mapId, x, y)`. -/
def Op.failedRemovals (s : MMapManager) : Op → Nat
  | .unloadMapAll rm mapId => MMAP.failedRemovals rm 0 (loadedTilesOf s mapId).length
  | _ => 0

/-- The number of `removeTile` calls that fail inside the `unloadMap(mapId)`
calls of a sequence of calls from the state `s`. -/
def failedBulkRemovals (k : Consts) : List Op → MMapManager → Nat
  | [], _ => 0
  | op :: ops, s => op.failedRemovals s + failedBulkRemovals k ops (op.run k s).state

/-- Every map has one record and every tile of a map one entry. -/
def uniqueKeys (s : MMapManager) : Prop :=
  (s.loadedMMaps.map Prod.fst).Nodup ∧
  ∀ m d, s.loadedMMaps.find m = some d → (d.mmapLoadedTiles.map Prod.fst).Nodup

/-- The allocator of query objects hands out fresh objects: what
`dtAllocNavMeshQuery` returns to the call is not an object the manager holds. -/
def freshQuery (op : Op) (s : MMapManager) : Prop :=
  match op with
  | .GetNavMeshQuery env _ _ => ∀ query, env.query = some query → query ∉ queryHandles s
  | _ => True

/-- Every call of the sequence meets an allocator that hands out fresh query
objects. -/
def freshQueries (k : Consts) : List Op → MMapManager → Prop
  | [], _ => True
  | op :: ops, s => freshQuery op s ∧ freshQueries k ops (op.run k s).state

/-- No record stores a query object under two instances. -/
def queriesStoredOnce (s : MMapManager) : Prop :=
  ∀ m d, s.loadedMMaps.find m = some d → (d.navMeshQueries.map Prod.snd).Nodup

/-! ## Facts about the containers -/

namespace Table

variable {V : Type}

theorem insert_of_find_none (t : Table V) (k : Nat) (v : V) (h : find t k = none) :
    insert t k v = (k, v) :: t := by
  simp [insert, h]

theorem insert_of_find_some (t : Table V) (k : Nat) (v w : V) (h : find t k = some w) :
    insert t k v = t := by
  simp [insert, h]

theorem find_cons_self (t : Table V) (k : Nat) (v : V) : find ((k, v) :: t) k = some v := by
  simp [find]

theorem find_insert_self (t : Table V) (k : Nat) (v : V) :
    find (insert t k v) k = some ((find t k).getD v) := by
  cases h : find t k with
  | none => simp [insert, h, find]
  | some w => simp [insert, h]

theorem find_insert_ne (t : Table V) (k k' : Nat) (v : V) (hne : k ≠ k') :
    find (insert t k v) k' = find t k' := by
  cases h : find t k with
  | none => simp [insert, h, find, hne]
  | some w => simp [insert, h]

theorem find_assign_self (t : Table V) (k : Nat) (v w : V) (h : find t k = some w) :
    find (assign t k v) k = some v := by
  induction t with
  | nil => simp [find] at h
  | cons e t ih =>
    obtain ⟨k', v'⟩ := e
    by_cases hk : k' = k
    · simp [assign, find, hk]
    · simp only [find, hk, if_false] at h
      simp [assign, find, hk, ih h]

theorem find_assign_ne (t : Table V) (k k' : Nat) (v : V) (hne : k ≠ k') :
    find (assign t k v) k' = find t k' := by
  induction t with
  | nil => simp [assign]
  | cons e t ih =>
    obtain ⟨k₀, v₀⟩ := e
    by_cases hk : k₀ = k
    · subst hk
      simp [assign, find, hne]
    · simp [assign, find, hk, ih]

theorem assign_of_find (t : Table V) (k : Nat) (v : V) (h : find t k = some v) :
    assign t k v = t := by
  induction t with
  | nil => rfl
  | cons e t ih =>
    obtain ⟨k', v'⟩ := e
    by_cases hk : k' = k
    · simp only [find, hk, if_true, Option.some.injEq] at h
      simp [assign, hk, h]
    · simp only [find, hk, if_false] at h
      simp [assign, hk, ih h]

theorem assign_assign (t : Table V) (k : Nat) (v w : V) :
    assign (assign t k v) k w = assign t k w := by
  induction t with
  | nil => rfl
  | cons e t ih =>
    obtain ⟨k', v'⟩ := e
    by_cases hk : k' = k
    · simp [assign, hk]
    · simp [assign, hk, ih]

theorem find_erase_self (t : Table V) (k : Nat) : find (erase t k) k = none := by
  induction t with
  | nil => rfl
  | cons e t ih =>
    obtain ⟨k', v'⟩ := e
    by_cases hk : k' = k
    · simp [erase, hk, ih]
    · simp [erase, find, hk, ih]

theorem find_erase_ne (t : Table V) (k k' : Nat) (hne : k ≠ k') :
    find (erase t k) k' = find t k' := by
  induction t with
  | nil => rfl
  | cons e t ih =>
    obtain ⟨k₀, v₀⟩ := e
    by_cases hk : k₀ = k
    · subst hk
      simp [erase, find, hne, ih]
    · by_cases hk' : k₀ = k'
      · subst hk'
        simp [erase, find, hk]
      · simp [erase, find, hk, hk', ih]

theorem erase_of_find_none (t : Table V) (k : Nat) (h : find t k = none) :
    erase t k = t := by
  induction t with
  | nil => rfl
  | cons e t ih =>
    obtain ⟨k', v'⟩ := e
    by_cases hk : k' = k
    · simp [find, hk] at h
    · simp only [find, hk, if_false] at h
      simp [erase, hk, ih h]

theorem erase_insert_of_find_none (t : Table V) (k : Nat) (v : V) (h : find t k = none) :
    erase (insert t k v) k = t := by
  rw [insert_of_find_none t k v h]
  simp [erase, erase_of_find_none t k h]

theorem mem_of_find (t : Table V) (k : Nat) (v : V) (h : find t k = some v) :
    (k, v) ∈ t := by
  induction t with
  | nil => simp [find] at h
  | cons e t ih =>
    obtain ⟨k', v'⟩ := e
    by_cases hk : k' = k
    · simp only [find, hk, if_true, Option.some.injEq] at h
      simp [hk, h]
    · simp only [find, hk, if_false] at h
      exact List.mem_cons_of_mem _ (ih h)

theorem value_mem_of_find (t : Table V) (k : Nat) (v : V) (h : find t k = some v) :
    v ∈ t.map Prod.snd :=
  List.mem_map.mpr ⟨(k, v), mem_of_find t k v h, rfl⟩

theorem erase_sublist (t : Table V) (k : Nat) : (erase t k).Sublist t := by
  induction t with
  | nil => exact List.Sublist.slnil
  | cons e t ih =>
    obtain ⟨k', v'⟩ := e
    by_cases hk : k' = k
    · simp only [erase, hk, if_true]
      exact List.Sublist.cons _ ih
    · simp only [erase, hk, if_false]
      exact List.Sublist.cons₂ _ ih

theorem find_eq_none_of_not_mem_keys (t : Table V) (k : Nat) (h : k ∉ t.map Prod.fst) :
    find t k = none := by
  induction t with
  | nil => rfl
  | cons e t ih =>
    obtain ⟨k', v'⟩ := e
    simp only [List.map_cons, List.mem_cons, not_or] at h
    simp [find, Ne.symm h.1, ih h.2]

theorem not_mem_keys_of_find_none (t : Table V) (k : Nat) (h : find t k = none) :
    k ∉ t.map Prod.fst := by
  induction t with
  | nil => simp
  | cons e t ih =>
    obtain ⟨k', v'⟩ := e
    by_cases hk : k' = k
    · simp [find, hk] at h
    · simp only [find, hk, if_false] at h
      simp only [List.map_cons, List.mem_cons, not_or]
      exact ⟨Ne.symm hk, ih h⟩

theorem keys_erase_nodup (t : Table V) (k : Nat) (h : (t.map Prod.fst).Nodup) :
    ((erase t k).map Prod.fst).Nodup :=
  h.sublist ((erase_sublist t k).map Prod.fst)

theorem values_erase_nodup (t : Table V) (k : Nat) (h : (t.map Prod.snd).Nodup) :
    ((erase t k).map Prod.snd).Nodup :=
  h.sublist ((erase_sublist t k).map Prod.snd)

/-- In a table with distinct keys and distinct values, erasing a key removes
exactly the value stored under it from the list of values. -/
theorem values_erase (t : Table Nat) (k v : Nat) (hk : (t.map Prod.fst).Nodup)
    (hv : (t.map Prod.snd).Nodup) (h : find t k = some v) :
    (erase t k).map Prod.snd = (t.map Prod.snd).filter fun r => r ≠ v := by
  induction t with
  | nil => simp [find] at h
  | cons e t ih =>
    obtain ⟨k', v'⟩ := e
    rw [List.map_cons, List.nodup_cons] at hk hv
    by_cases hkk : k' = k
    · subst hkk
      simp only [find, if_true, Option.some.injEq] at h
      subst h
      have hnone := find_eq_none_of_not_mem_keys t k' hk.1
      simp only [erase, if_true, erase_of_find_none t k' hnone, List.map_cons]
      rw [List.filter_cons_of_neg (by simp)]
      symm
      rw [List.filter_eq_self]
      intro r hr
      simp only [ne_eq, decide_not, Bool.not_eq_true', decide_eq_false_iff_not]
      intro hrv
      exact hv.1 (hrv ▸ hr)
    · simp only [find, hkk, if_false] at h
      have hne : v' ≠ v := by
        intro hvv
        exact hv.1 (hvv ▸ value_mem_of_find t k v h)
      simp only [erase, hkk, if_false, List.map_cons]
      rw [List.filter_cons_of_pos (by simp [hne]), ih hk.2 hv.2 h]

theorem mem_of_mem_erase (t : Table V) (k : Nat) (e : Nat × V) (h : e ∈ erase t k) :
    e ∈ t :=
  (erase_sublist t k).subset h

theorem key_eq_of_not_mem_erase (t : Table V) (k : Nat) (e : Nat × V) (h : e ∈ t)
    (hn : e ∉ erase t k) : e.1 = k := by
  induction t with
  | nil => simp at h
  | cons e' t ih =>
    obtain ⟨k', v'⟩ := e'
    by_cases hk : k' = k
    · simp only [erase, hk, if_true] at hn
      rcases List.mem_cons.mp h with he | he
      · rw [he]; exact hk
      · exact ih he hn
    · simp only [erase, hk, if_false, List.mem_cons, not_or] at hn
      rcases List.mem_cons.mp h with he | he
      · exact absurd he hn.1
      · exact ih he hn.2

theorem keys_assign (t : Table V) (k : Nat) (v : V) :
    (assign t k v).map Prod.fst = t.map Prod.fst := by
  induction t with
  | nil => rfl
  | cons e t ih =>
    obtain ⟨k', v'⟩ := e
    by_cases hk : k' = k
    · simp [assign, hk]
    · simp [assign, hk, ih]

/-- Replacing the value of a key changes the sum of a measure over the table
by the difference of the measures of the new and the old value. -/
theorem sum_assign (f : V → Nat) (t : Table V) (k : Nat) (old new : V)
    (h : find t k = some old) :
    ((assign t k new).map fun e => f e.2).sum + f old =
      (t.map fun e => f e.2).sum + f new := by
  induction t with
  | nil => simp [find] at h
  | cons e t ih =>
    obtain ⟨k', v'⟩ := e
    by_cases hk : k' = k
    · simp only [find, hk, if_true, Option.some.injEq] at h
      subst h
      simp only [assign, hk, if_true, List.map_cons, List.sum_cons]
      omega
    · simp only [find, hk, if_false] at h
      have := ih h
      simp only [assign, hk, if_false, List.map_cons, List.sum_cons]
      omega

/-- With distinct keys, erasing a key removes the measure of its value from
the sum of a measure over the table. -/
theorem sum_erase (f : V → Nat) (t : Table V) (k : Nat) (old : V)
    (hk : (t.map Prod.fst).Nodup) (h : find t k = some old) :
    ((erase t k).map fun e => f e.2).sum + f old = (t.map fun e => f e.2).sum := by
  induction t with
  | nil => simp [find] at h
  | cons e t ih =>
    obtain ⟨k', v'⟩ := e
    rw [List.map_cons, List.nodup_cons] at hk
    by_cases hkk : k' = k
    · subst hkk
      simp only [find, if_true, Option.some.injEq] at h
      subst h
      have hnone := find_eq_none_of_not_mem_keys t k' hk.1
      simp only [erase, if_true, erase_of_find_none t k' hnone, List.map_cons, List.sum_cons]
      omega
    · simp only [find, hkk, if_false] at h
      have := ih hk.2 h
      simp only [erase, hkk, if_false, List.map_cons, List.sum_cons]
      omega

theorem length_erase (t : Table V) (k : Nat) (v : V) (hk : (t.map Prod.fst).Nodup)
    (h : find t k = some v) : (erase t k).length + 1 = t.length := by
  have := sum_erase (fun _ => 1) t k v hk h
  simpa using this

end Table

/-! ## Facts about the member functions -/

namespace MMapManager

theorem loadMapData_of_find_some (env : MapDataEnv) (s : MMapManager) (mapId : Nat)
    (d : MMapData) (h : s.loadedMMaps.find mapId = some d) :
    loadMapData env s mapId = ⟨[], s, some true⟩ := by
  simp [loadMapData, h]

theorem loadMapData_loadedTiles (env : MapDataEnv) (s : MMapManager) (mapId : Nat) :
    (loadMapData env s mapId).state.loadedTiles = s.loadedTiles := by
  unfold loadMapData
  repeat' split
  all_goals rfl

/-- After a successful `loadMapData` the map has a record: the one it had, or a
fresh one with no tiles and no queries. -/
theorem loadMapData_ret_true (env : MapDataEnv) (s : MMapManager) (mapId : Nat)
    (h : (loadMapData env s mapId).ret = some true) :
    (∃ d, s.loadedMMaps.find mapId = some d ∧ loadMapData env s mapId = ⟨[], s, some true⟩) ∨
    (s.loadedMMaps.find mapId = none ∧ ∃ mesh,
      (loadMapData env s mapId).state =
        ⟨(mapId, ⟨mesh, [], []⟩) :: s.loadedMMaps, s.loadedTiles⟩) := by
  cases hf : s.loadedMMaps.find mapId with
  | some d => exact Or.inl ⟨d, rfl, loadMapData_of_find_some env s mapId d hf⟩
  | none =>
    refine Or.inr ⟨rfl, ?_⟩
    unfold loadMapData at h ⊢
    simp only [hf] at h ⊢
    split at h
    · simp at h
    · simp at h
    · split at h
      · simp at h
      · rename_i mesh _
        split at h
        · simp at h
        · rename_i hinit
          refine ⟨mesh, ?_⟩
          simp [hinit, Table.insert_of_find_none _ _ _ hf]

theorem loadMapData_find_of_ret_true (env : MapDataEnv) (s : MMapManager) (mapId : Nat)
    (h : (loadMapData env s mapId).ret = some true) :
    ∃ d, (loadMapData env s mapId).state.loadedMMaps.find mapId = some d := by
  rcases loadMapData_ret_true env s mapId h with ⟨d, hd, he⟩ | ⟨_, mesh, he⟩
  · exact ⟨d, by rw [he]; exact hd⟩
  · exact ⟨⟨mesh, [], []⟩, by rw [he]; exact Table.find_cons_self _ _ _⟩

/-- A successful tile step stores the returned reference under the packed
coordinate and adds one to the counter. -/
theorem loadMapTile_ret_true (k : Consts) (tenv : TileEnv) (pre : List Event)
    (s : MMapManager) (mmap : MMapData) (mapId : Nat) (x y : Int)
    (h : (loadMapTile k tenv pre s mmap mapId x y).ret = some true) :
    (loadMapTile k tenv pre s mmap mapId x y).state =
      ⟨s.loadedMMaps.assign mapId
         { mmap with mmapLoadedTiles :=
             mmap.mmapLoadedTiles.insert (packTileID x y) tenv.tileRef },
       s.loadedTiles + 1⟩ := by
  unfold loadMapTile at h ⊢
  repeat' split
  all_goals first
    | rfl
    | simp_all

/-- A successful `loadMap` found the tile absent and went through the tile
step on the state left by `loadMapData`. -/
theorem loadMap_ret_true (k : Consts) (menv : MapDataEnv) (tenv : TileEnv)
    (s : MMapManager) (mapId : Nat) (x y : Int)
    (h : (loadMap k menv tenv s mapId x y).ret = some true) :
    ∃ mmap, (loadMapData menv s mapId).ret = some true ∧
      (loadMapData menv s mapId).state.loadedMMaps.find mapId = some mmap ∧
      mmap.mmapLoadedTiles.find (packTileID x y) = none ∧
      loadMap k menv tenv s mapId x y =
        loadMapTile k tenv (loadMapData menv s mapId).events
          (loadMapData menv s mapId).state mmap mapId x y := by
  unfold loadMap at h ⊢
  simp only at h ⊢
  split at h
  · rename_i hr
    rw [hr] at h
    simp at h
  · simp at h
  · rename_i hr
    split at h
    · simp at h
    · rename_i mmap hm
      split at h
      · simp at h
      · rename_i ht
        refine ⟨mmap, hr, hm, ht, ?_⟩
        simp [hr, hm, ht]

/-- The already-loaded check: on a loaded map that has an entry for the packed
coordinate, `loadMap` returns `false` without any external call. -/
theorem loadMap_of_tile_loaded (k : Consts) (menv : MapDataEnv) (tenv : TileEnv)
    (s : MMapManager) (mapId : Nat) (x y : Int) (d : MMapData) (tileRef : dtTileRef)
    (hd : s.loadedMMaps.find mapId = some d)
    (ht : d.mmapLoadedTiles.find (packTileID x y) = some tileRef) :
    loadMap k menv tenv s mapId x y = ⟨[], s, some false⟩ := by
  unfold loadMap
  simp [loadMapData_of_find_some menv s mapId d hd, hd, ht]

/-- On a loaded map without an entry for the packed coordinate, `loadMap` is
the tile step on the unchanged state. -/
theorem loadMap_of_tile_absent (k : Consts) (menv : MapDataEnv) (tenv : TileEnv)
    (s : MMapManager) (mapId : Nat) (x y : Int) (d : MMapData)
    (hd : s.loadedMMaps.find mapId = some d)
    (ht : d.mmapLoadedTiles.find (packTileID x y) = none) :
    loadMap k menv tenv s mapId x y = loadMapTile k tenv [] s d mapId x y := by
  unfold loadMap
  simp [loadMapData_of_find_some menv s mapId d hd, hd, ht]

/-- The tile step returns `true` exactly when the file opens, its header is
read with the expected magic and version, the buffer is allocated, the payload
is read in full and `addTile` reports success. -/
theorem loadMapTile_ret_true_iff (k : Consts) (tenv : TileEnv) (pre : List Event)
    (s : MMapManager) (mmap : MMapData) (mapId : Nat) (x y : Int) :
    (loadMapTile k tenv pre s mmap mapId x y).ret = some true ↔
      ∃ file fileHeader data, tenv.file = some file ∧ file.header = some fileHeader ∧
        fileHeader.mmapMagic = k.MMAP_MAGIC ∧ fileHeader.mmapVersion = k.MMAP_VERSION ∧
        tenv.data = some data ∧ file.freadPayload fileHeader.size ≠ 0 ∧
        dtStatusSucceed tenv.addTile = true := by
  unfold loadMapTile
  constructor
  · intro h
    split at h
    · simp at h
    · rename_i file hfile
      split at h
      · simp at h
      · rename_i fileHeader hheader
        split at h
        · simp at h
        · rename_i hmagic
          split at h
          · simp at h
          · rename_i hversion
            split at h
            · simp at h
            · rename_i data hdata
              split at h
              · simp at h
              · rename_i hread
                split at h
                · rename_i hadd
                  exact ⟨file, fileHeader, data, hfile, hheader, not_not.mp hmagic,
                    not_not.mp hversion, hdata, hread, hadd⟩
                · simp at h
  · rintro ⟨file, fileHeader, data, hfile, hheader, hmagic, hversion, hdata, hread, hadd⟩
    simp [hfile, hheader, hmagic, hversion, hdata, hread, hadd]

/-- The calls of `loadMapData` are `fopen`, `fclose`, the allocation, `init`
and release of a mesh, log lines and a failed `ASSERT`: neither `dtAlloc` nor
`addTile`. -/
theorem loadMapData_events (env : MapDataEnv) (s : MMapManager) (mapId : Nat) :
    (∀ mesh data size st tileRef,
      Event.addTile mesh data size st tileRef ∉ (loadMapData env s mapId).events) ∧
    (∀ size data, Event.dtAlloc size data ∉ (loadMapData env s mapId).events) := by
  unfold loadMapData
  repeat' split
  all_goals simp

/-- The function `loadMapData` adds no tile entry to any map. -/
theorem loadMapData_loadedTilesOf (env : MapDataEnv) (s : MMapManager) (mapId m : Nat) :
    loadedTilesOf (loadMapData env s mapId).state m = loadedTilesOf s m := by
  cases hf : s.loadedMMaps.find mapId with
  | some d => rw [loadMapData_of_find_some env s mapId d hf]
  | none =>
    unfold loadMapData
    simp only [hf]
    repeat' split
    all_goals first
      | rfl
      | (simp only [loadedTilesOf, Table.insert_of_find_none _ _ _ hf]
         by_cases hm : mapId = m
         · subst hm
           simp [Table.find, hf]
         · simp [Table.find, hm])

/-- When `loadMapData` returns `true` and the tile has no entry, `loadMap` is
the tile step on the state that `loadMapData` left. -/
theorem loadMap_eq_loadMapTile (k : Consts) (menv : MapDataEnv) (tenv : TileEnv)
    (s : MMapManager) (mapId : Nat) (x y : Int)
    (hmap : (loadMapData menv s mapId).ret = some true)
    (htile : (loadedTilesOf s mapId).find (packTileID x y) = none) :
    ∃ mmap, (loadMapData menv s mapId).state.loadedMMaps.find mapId = some mmap ∧
      loadMap k menv tenv s mapId x y =
        loadMapTile k tenv (loadMapData menv s mapId).events
          (loadMapData menv s mapId).state mmap mapId x y := by
  obtain ⟨mmap, hm⟩ := loadMapData_find_of_ret_true menv s mapId hmap
  refine ⟨mmap, hm, ?_⟩
  have ht : mmap.mmapLoadedTiles.find (packTileID x y) = none := by
    have h := loadMapData_loadedTilesOf menv s mapId mapId
    simp only [loadedTilesOf, hm] at h
    rw [h]
    exact htile
  unfold loadMap
  simp [hmap, hm, ht]

/-- A query object that is missing is allocated, initialised and stored. -/
theorem GetNavMeshQuery_of_find_none (env : QueryEnv) (s : MMapManager)
    (mapId instanceId : Nat) (d : MMapData) (a : Ptr)
    (hd : s.loadedMMaps.find mapId = some d)
    (hq : d.navMeshQueries.find instanceId = none)
    (halloc : env.query = some a) (hinit : dtStatusFailed env.init = false) :
    GetNavMeshQuery env s mapId instanceId =
      ⟨[.dtAllocNavMeshQuery (some a), .queryInit a d.navMesh 1024 env.init,
        .log (.getNavMeshQueryCreated mapId instanceId)],
       ⟨s.loadedMMaps.assign mapId
          { d with navMeshQueries := (instanceId, a) :: d.navMeshQueries },
        s.loadedTiles⟩,
       some (some a)⟩ := by
  simp [GetNavMeshQuery, hd, hq, halloc, hinit, Table.insert_of_find_none _ _ _ hq,
    Table.find]

/-- When no removal fails, the loop of `unloadMap(mapId)` subtracts the number
of entries from the counter. -/
theorem unloadMapLoop_count (mapId : Nat) (mesh : Ptr) (rm : Nat → dtStatus)
    (l : List (Nat × dtTileRef)) (i : Nat) (n : Int)
    (hrm : ∀ j, j < l.length → dtStatusFailed (rm (i + j)) = false) :
    (unloadMapLoop mapId mesh rm l i n).2 = n - l.length := by
  induction l generalizing i n with
  | nil => simp [unloadMapLoop]
  | cons e l ih =>
    obtain ⟨key, tileRef⟩ := e
    have h0 : dtStatusFailed (rm i) = false := by
      simpa using hrm 0 (by simp)
    have hrest : ∀ j, j < l.length → dtStatusFailed (rm (i + 1 + j)) = false := by
      intro j hj
      have := hrm (j + 1) (by simpa using hj)
      rwa [show i + (j + 1) = i + 1 + j by omega] at this
    simp only [unloadMapLoop, h0, Bool.false_eq_true, if_false, ih (i + 1) (n - 1) hrest,
      List.length_cons, Nat.cast_add, Nat.cast_one]
    ring

/-- The loop of `unloadMap(mapId)` calls `removeTile` once for every entry, in
the order of the entries, whatever the calls answer, and no `ASSERT` fails. -/
theorem unloadMapLoop_calls (mapId : Nat) (mesh : Ptr) (rm : Nat → dtStatus)
    (l : List (Nat × dtTileRef)) (i : Nat) (n : Int) :
    removeTileCalls (unloadMapLoop mapId mesh rm l i n).1 = l.map Prod.snd ∧
    Event.assertFailed ∉ (unloadMapLoop mapId mesh rm l i n).1 := by
  induction l generalizing i n with
  | nil => simp [unloadMapLoop, removeTileCalls]
  | cons e l ih =>
    obtain ⟨key, tileRef⟩ := e
    by_cases h : dtStatusFailed (rm i) = true
    · have := ih (i + 1) n
      simp only [removeTileCalls] at this
      simp [unloadMapLoop, h, removeTileCalls, this]
    · have := ih (i + 1) (n - 1)
      simp only [removeTileCalls] at this
      simp [unloadMapLoop, h, removeTileCalls, this]

theorem toUInt32_of_range (x : Int) (h0 : 0 ≤ x) (h : x < 4294967296) :
    (toUInt32 x : Int) = x := by
  unfold toUInt32
  omega

/-- On 16-bit coordinates the packed key is `x * 2^16 + y`. -/
theorem packTileID_natCast (a b : Nat) (ha : a < 65536) (hb : b < 65536) :
    packTileID (a : Int) (b : Int) = a * 65536 + b := by
  have hxa : toUInt32 (a : Int) = a := by
    have := toUInt32_of_range (a : Int) (by omega) (by omega)
    exact_mod_cast this
  have hxb : toUInt32 (b : Int) = b := by
    have := toUInt32_of_range (b : Int) (by omega) (by omega)
    exact_mod_cast this
  unfold packTileID
  rw [hxa, hxb, Nat.shiftLeft_eq, Nat.mul_comm a (2 ^ 16),
    ← Nat.mul_add_lt_is_or (by omega : b < 2 ^ 16) a]
  omega

/-- The unpacking of `unloadMap(mapId)`, `key >> 16` and `key & 0xFFFF`, on a
key built from 16-bit coordinates. -/
theorem unpack_of_range (a b : Nat) (hb : b < 65536) :
    (a * 65536 + b) >>> 16 = a ∧ (a * 65536 + b) &&& 0x0000FFFF = b := by
  constructor
  · rw [Nat.shiftRight_eq_div_pow]
    omega
  · have h := Nat.and_pow_two_sub_one_eq_mod (a * 65536 + b) 16
    norm_num at h ⊢
    rw [h]
    omega

/-- Or-ing with the all-ones pattern gives the all-ones pattern. -/
theorem or_allOnes_mod (c : Nat) : (c ||| 4294967295) % 4294967296 = 4294967295 := by
  have h : ∀ n : Nat, (c ||| (2 ^ n - 1)) % 2 ^ n = 2 ^ n - 1 := by
    intro n
    apply Nat.eq_of_testBit_eq
    intro i
    simp only [Nat.testBit_mod_two_pow, Nat.testBit_or, Nat.testBit_two_pow_sub_one]
    by_cases hi : i < n <;> simp [hi]
  simpa using h 32

/-- A `y` of `-1` fills the whole key, whatever `x` is. -/
theorem packTileID_neg_one (x : Int) : packTileID x (-1) = 4294967295 := by
  have hy : toUInt32 (-1) = 4294967295 := by decide
  unfold packTileID
  rw [hy]
  exact or_allOnes_mod _

/-- After a successful `loadMap` the map has a record whose tile set holds the
reference that `addTile` returned under the packed coordinate. -/
theorem loadMap_ret_true_entry (k : Consts) (menv : MapDataEnv) (tenv : TileEnv)
    (s : MMapManager) (mapId : Nat) (x y : Int)
    (h : (loadMap k menv tenv s mapId x y).ret = some true) :
    ∃ d, (loadMap k menv tenv s mapId x y).state.loadedMMaps.find mapId = some d ∧
      d.mmapLoadedTiles.find (packTileID x y) = some tenv.tileRef := by
  obtain ⟨mmap, _, hm, ht, he⟩ := loadMap_ret_true k menv tenv s mapId x y h
  have hst := loadMapTile_ret_true k tenv _ _ mmap mapId x y (he ▸ h)
  rw [← he] at hst
  refine ⟨{ mmap with mmapLoadedTiles :=
              mmap.mmapLoadedTiles.insert (packTileID x y) tenv.tileRef }, ?_, ?_⟩
  · rw [hst]
    exact Table.find_assign_self _ _ _ _ hm
  · simp [Table.find_insert_self, ht]

/-- The function `loadMapData` leaves the state as it is or adds one fresh
record for a map that had none. -/
theorem loadMapData_state_cases (env : MapDataEnv) (s : MMapManager) (mapId : Nat) :
    (loadMapData env s mapId).state = s ∨
    (s.loadedMMaps.find mapId = none ∧ ∃ mesh,
      (loadMapData env s mapId).state =
        ⟨(mapId, ⟨mesh, [], []⟩) :: s.loadedMMaps, s.loadedTiles⟩) := by
  cases hf : s.loadedMMaps.find mapId with
  | some d => exact Or.inl (by rw [loadMapData_of_find_some env s mapId d hf])
  | none =>
    unfold loadMapData
    simp only [hf]
    repeat' split
    all_goals first
      | exact Or.inl rfl
      | (rename_i mesh _ _
         exact Or.inr ⟨trivial, mesh, by simp [Table.insert_of_find_none _ _ _ hf]⟩)

/-- A tile step that does not return `true` leaves the state as it is. -/
theorem loadMapTile_state_of_ret_ne_true (k : Consts) (tenv : TileEnv) (pre : List Event)
    (s : MMapManager) (mmap : MMapData) (mapId : Nat) (x y : Int)
    (h : (loadMapTile k tenv pre s mmap mapId x y).ret ≠ some true) :
    (loadMapTile k tenv pre s mmap mapId x y).state = s := by
  unfold loadMapTile at h ⊢
  repeat' split
  all_goals first
    | rfl
    | simp_all

/-- A `loadMap` that does not return `true` ends in the state that its call of
`loadMapData` left. -/
theorem loadMap_state_of_ret_ne_true (k : Consts) (menv : MapDataEnv) (tenv : TileEnv)
    (s : MMapManager) (mapId : Nat) (x y : Int)
    (h : (loadMap k menv tenv s mapId x y).ret ≠ some true) :
    (loadMap k menv tenv s mapId x y).state = (loadMapData menv s mapId).state := by
  unfold loadMap at h ⊢
  simp only at h ⊢
  split
  · rfl
  · rfl
  · rename_i hr
    simp only [hr] at h
    split
    · rfl
    · rename_i mmap hm
      simp only [hm] at h
      split
      · rfl
      · rename_i ht
        simp only [ht] at h
        exact loadMapTile_state_of_ret_ne_true k tenv _ _ mmap mapId x y h

theorem meshAfter_append (a b : List Event) (g : List dtTileRef) :
    meshAfter (a ++ b) g = meshAfter b (meshAfter a g) := by
  simp [meshAfter, List.foldl_append]

/-- The function `loadMapData` calls neither `addTile` nor `removeTile`. -/
theorem meshAfter_loadMapData (env : MapDataEnv) (s : MMapManager) (mapId : Nat)
    (g : List dtTileRef) : meshAfter (loadMapData env s mapId).events g = g := by
  unfold loadMapData
  repeat' split
  all_goals rfl

/-- The tile step changes the mesh exactly when it returns `true`: it adds the
reference that `addTile` returned. -/
theorem meshAfter_loadMapTile (k : Consts) (tenv : TileEnv) (pre : List Event)
    (s : MMapManager) (mmap : MMapData) (mapId : Nat) (x y : Int) (g : List dtTileRef) :
    meshAfter (loadMapTile k tenv pre s mmap mapId x y).events g =
      if (loadMapTile k tenv pre s mmap mapId x y).ret = some true
      then tenv.tileRef :: meshAfter pre g else meshAfter pre g := by
  unfold loadMapTile
  repeat' split
  all_goals simp_all [meshAfter, meshEvent, List.foldl_append]

/-- A `loadMap` changes the mesh exactly when it returns `true`: it adds the
reference that `addTile` returned. -/
theorem meshAfter_loadMap (k : Consts) (menv : MapDataEnv) (tenv : TileEnv)
    (s : MMapManager) (mapId : Nat) (x y : Int) (g : List dtTileRef) :
    meshAfter (loadMap k menv tenv s mapId x y).events g =
      if (loadMap k menv tenv s mapId x y).ret = some true
      then tenv.tileRef :: g else g := by
  cases hr : (loadMapData menv s mapId).ret with
  | none => simp [loadMap, hr, meshAfter_loadMapData]
  | some b =>
    cases b with
    | false => simp [loadMap, hr, meshAfter_loadMapData]
    | true =>
      cases hm : (loadMapData menv s mapId).state.loadedMMaps.find mapId with
      | none =>
        simp [loadMap, hr, hm, meshAfter_append, meshAfter_loadMapData]
        rfl
      | some mmap =>
        cases ht : mmap.mmapLoadedTiles.find (packTileID x y) with
        | some tileRef => simp [loadMap, hr, hm, ht, meshAfter_loadMapData]
        | none =>
          simp only [loadMap, hr, hm, ht]
          rw [meshAfter_loadMapTile, meshAfter_loadMapData]

theorem loadMapData_find_ne (env : MapDataEnv) (s : MMapManager) (mapId m : Nat)
    (h : m ≠ mapId) :
    (loadMapData env s mapId).state.loadedMMaps.find m = s.loadedMMaps.find m := by
  rcases loadMapData_state_cases env s mapId with hs | ⟨_, mesh, hs⟩
  · rw [hs]
  · rw [hs]
    simp [Table.find, Ne.symm h]

/-- The state after a `loadMap` that returned `true`. -/
theorem loadMap_state_of_ret_true (k : Consts) (menv : MapDataEnv) (tenv : TileEnv)
    (s : MMapManager) (mapId : Nat) (x y : Int)
    (h : (loadMap k menv tenv s mapId x y).ret = some true) :
    ∃ mmap, (loadMapData menv s mapId).state.loadedMMaps.find mapId = some mmap ∧
      mmap.mmapLoadedTiles.find (packTileID x y) = none ∧
      (loadMap k menv tenv s mapId x y).state =
        ⟨(loadMapData menv s mapId).state.loadedMMaps.assign mapId
           { mmap with mmapLoadedTiles :=
               (packTileID x y, tenv.tileRef) :: mmap.mmapLoadedTiles },
         s.loadedTiles + 1⟩ := by
  obtain ⟨mmap, _, hm, ht, he⟩ := loadMap_ret_true k menv tenv s mapId x y h
  have hst := loadMapTile_ret_true k tenv _ _ mmap mapId x y (he ▸ h)
  rw [← he, Table.insert_of_find_none _ _ _ ht, loadMapData_loadedTiles] at hst
  exact ⟨mmap, hm, ht, hst⟩

theorem loadMap_find_ne (k : Consts) (menv : MapDataEnv) (tenv : TileEnv)
    (s : MMapManager) (mapId : Nat) (x y : Int) (m : Nat) (h : m ≠ mapId) :
    (loadMap k menv tenv s mapId x y).state.loadedMMaps.find m = s.loadedMMaps.find m := by
  by_cases hret : (loadMap k menv tenv s mapId x y).ret = some true
  · obtain ⟨mmap, _, _, hst⟩ := loadMap_state_of_ret_true k menv tenv s mapId x y hret
    rw [hst]
    simp only
    rw [Table.find_assign_ne _ _ _ _ (Ne.symm h)]
    exact loadMapData_find_ne menv s mapId m h
  · rw [loadMap_state_of_ret_ne_true k menv tenv s mapId x y hret]
    exact loadMapData_find_ne menv s mapId m h

theorem unloadMap_find_ne (rm : dtStatus) (s : MMapManager) (mapId : Nat) (x y : Int)
    (m : Nat) (h : m ≠ mapId) :
    (unloadMap rm s mapId x y).state.loadedMMaps.find m = s.loadedMMaps.find m := by
  unfold unloadMap
  repeat' split
  all_goals first
    | rfl
    | exact Table.find_assign_ne _ _ _ _ (Ne.symm h)

theorem unloadMapAll_find_ne (rm : Nat → dtStatus) (s : MMapManager) (mapId m : Nat)
    (h : m ≠ mapId) :
    (unloadMapAll rm s mapId).state.loadedMMaps.find m = s.loadedMMaps.find m := by
  unfold unloadMapAll
  split
  · rfl
  · exact Table.find_erase_ne _ _ _ (Ne.symm h)

theorem GetNavMeshQuery_find_ne (env : QueryEnv) (s : MMapManager) (mapId instanceId m : Nat)
    (h : m ≠ mapId) :
    (GetNavMeshQuery env s mapId instanceId).state.loadedMMaps.find m =
      s.loadedMMaps.find m := by
  unfold GetNavMeshQuery
  repeat' split
  all_goals first
    | rfl
    | exact Table.find_assign_ne _ _ _ _ (Ne.symm h)

theorem unloadMapInstance_find_ne (s : MMapManager) (mapId instanceId m : Nat)
    (h : m ≠ mapId) :
    (unloadMapInstance s mapId instanceId).state.loadedMMaps.find m =
      s.loadedMMaps.find m := by
  unfold unloadMapInstance
  repeat' split
  all_goals first
    | rfl
    | exact Table.find_assign_ne _ _ _ _ (Ne.symm h)

/-- A call leaves the records of all maps but its own as they are. -/
theorem run_find_ne (k : Consts) (op : Op) (s : MMapManager) (m : Nat) (h : m ≠ op.mapId) :
    (op.run k s).state.loadedMMaps.find m = s.loadedMMaps.find m := by
  cases op with
  | loadMapData env mapId => exact loadMapData_find_ne env s mapId m h
  | loadMap menv tenv mapId x y => exact loadMap_find_ne k menv tenv s mapId x y m h
  | unloadMap rm mapId x y => exact unloadMap_find_ne rm s mapId x y m h
  | unloadMapAll rm mapId => exact unloadMapAll_find_ne rm s mapId m h
  | GetNavMeshQuery env mapId instanceId =>
    exact GetNavMeshQuery_find_ne env s mapId instanceId m h
  | unloadMapInstance mapId instanceId =>
    exact unloadMapInstance_find_ne s mapId instanceId m h

/-- The function `loadMapData` keeps the mesh contents in agreement with the
state: a fresh record comes with an empty mesh. -/
theorem meshConsistent_loadMapData (env : MapDataEnv) (s : MMapManager) (mapId : Nat)
    (g : Nat → List dtTileRef) (h : meshConsistent s g) :
    meshConsistent (loadMapData env s mapId).state g := by
  rcases loadMapData_state_cases env s mapId with hs | ⟨hnone, mesh, hs⟩
  · rw [hs]; exact h
  · rw [hs]
    constructor
    · intro m hm
      by_cases hmm : mapId = m
      · simp [Table.find, hmm] at hm
      · simp only [Table.find, hmm, if_false] at hm
        exact h.1 m hm
    · intro m d hm
      by_cases hmm : mapId = m
      · simp only [Table.find, hmm, if_true, Option.some.injEq] at hm
        subst hm
        subst hmm
        simp [h.1 mapId hnone]
      · simp only [Table.find, hmm, if_false] at hm
        exact h.2 m d hm

/-- A `loadMap` that returns `true` went through an `addTile` that reported
success. -/
theorem loadMap_ret_true_addTile (k : Consts) (menv : MapDataEnv) (tenv : TileEnv)
    (s : MMapManager) (mapId : Nat) (x y : Int)
    (h : (loadMap k menv tenv s mapId x y).ret = some true) :
    dtStatusSucceed tenv.addTile = true := by
  obtain ⟨mmap, _, _, _, he⟩ := loadMap_ret_true k menv tenv s mapId x y h
  rw [he] at h
  obtain ⟨_, _, _, _, _, _, _, _, _, hadd⟩ :=
    (loadMapTile_ret_true_iff k tenv _ _ mmap mapId x y).mp h
  exact hadd

theorem loadMap_mesh_at (k : Consts) (menv : MapDataEnv) (tenv : TileEnv)
    (s : MMapManager) (mapId : Nat) (x y : Int) (g : Nat → List dtTileRef)
    (hinv : meshConsistent s g)
    (hfresh : dtStatusSucceed tenv.addTile = true → tenv.tileRef ∉ g mapId)
    (d : MMapData)
    (hfind : (loadMap k menv tenv s mapId x y).state.loadedMMaps.find mapId = some d) :
    meshAfter (loadMap k menv tenv s mapId x y).events (g mapId) =
        d.mmapLoadedTiles.map Prod.snd ∧
      (d.mmapLoadedTiles.map Prod.fst).Nodup ∧ (d.mmapLoadedTiles.map Prod.snd).Nodup := by
  have hinv1 := meshConsistent_loadMapData menv s mapId g hinv
  rw [meshAfter_loadMap]
  by_cases hret : (loadMap k menv tenv s mapId x y).ret = some true
  · obtain ⟨mmap, hm, ht, hst⟩ := loadMap_state_of_ret_true k menv tenv s mapId x y hret
    rw [hst] at hfind
    simp only [Table.find_assign_self _ _ _ _ hm, Option.some.injEq] at hfind
    subst hfind
    obtain ⟨hg, hkeys, hrefs⟩ := hinv1.2 mapId mmap hm
    have hnew := hfresh (loadMap_ret_true_addTile k menv tenv s mapId x y hret)
    rw [if_pos hret]
    simp only [List.map_cons, List.nodup_cons]
    refine ⟨by rw [hg], ⟨Table.not_mem_keys_of_find_none _ _ ht, hkeys⟩, ⟨?_, hrefs⟩⟩
    rw [← hg]; exact hnew
  · rw [loadMap_state_of_ret_ne_true k menv tenv s mapId x y hret] at hfind
    rw [if_neg hret]
    exact hinv1.2 mapId d hfind

theorem unloadMap_mesh_at (rm : dtStatus) (s : MMapManager) (mapId : Nat) (x y : Int)
    (g : Nat → List dtTileRef) (hinv : meshConsistent s g) (d : MMapData)
    (hfind : (unloadMap rm s mapId x y).state.loadedMMaps.find mapId = some d) :
    meshAfter (unloadMap rm s mapId x y).events (g mapId) =
        d.mmapLoadedTiles.map Prod.snd ∧
      (d.mmapLoadedTiles.map Prod.fst).Nodup ∧ (d.mmapLoadedTiles.map Prod.snd).Nodup := by
  cases hd : s.loadedMMaps.find mapId with
  | none => simp [unloadMap, hd] at hfind
  | some d0 =>
    obtain ⟨hg, hkeys, hrefs⟩ := hinv.2 mapId d0 hd
    cases ht : d0.mmapLoadedTiles.find (packTileID x y) with
    | none =>
      simp only [unloadMap, hd, ht, Option.some.injEq] at hfind ⊢
      subst hfind
      exact ⟨hg, hkeys, hrefs⟩
    | some tileRef =>
      cases hrm : dtStatusFailed rm with
      | true =>
        simp only [unloadMap, hd, ht, hrm, if_true, Option.some.injEq] at hfind ⊢
        subst hfind
        refine ⟨?_, hkeys, hrefs⟩
        simp [meshAfter, meshEvent, hrm, hg]
      | false =>
        simp only [unloadMap, hd, ht, hrm, Bool.false_eq_true, if_false,
          Table.find_assign_self _ _ _ _ hd, Option.some.injEq] at hfind ⊢
        subst hfind
        refine ⟨?_, Table.keys_erase_nodup _ _ hkeys, Table.values_erase_nodup _ _ hrefs⟩
        simp only [meshAfter, List.foldl_cons, List.foldl_nil, meshEvent, hrm,
          Bool.false_eq_true, if_false]
        rw [hg, Table.values_erase _ _ _ hkeys hrefs ht]

theorem unloadMapAll_find_self (rm : Nat → dtStatus) (s : MMapManager) (mapId : Nat) :
    (unloadMapAll rm s mapId).state.loadedMMaps.find mapId = none := by
  cases hd : s.loadedMMaps.find mapId with
  | none => simp [unloadMapAll, hd]
  | some d => simp [unloadMapAll, hd, Table.find_erase_self]

theorem GetNavMeshQuery_mesh_at (env : QueryEnv) (s : MMapManager) (mapId instanceId : Nat)
    (g : Nat → List dtTileRef) (hinv : meshConsistent s g) (d : MMapData)
    (hfind : (GetNavMeshQuery env s mapId instanceId).state.loadedMMaps.find mapId = some d) :
    meshAfter (GetNavMeshQuery env s mapId instanceId).events (g mapId) =
        d.mmapLoadedTiles.map Prod.snd ∧
      (d.mmapLoadedTiles.map Prod.fst).Nodup ∧ (d.mmapLoadedTiles.map Prod.snd).Nodup := by
  cases hd : s.loadedMMaps.find mapId with
  | none => simp [GetNavMeshQuery, hd] at hfind
  | some d0 =>
    have h0 := hinv.2 mapId d0 hd
    cases hq : d0.navMeshQueries.find instanceId with
    | some query =>
      simp only [GetNavMeshQuery, hd, hq, Option.some.injEq] at hfind ⊢
      subst hfind
      exact h0
    | none =>
      cases ha : env.query with
      | none =>
        simp only [GetNavMeshQuery, hd, hq, ha, Option.some.injEq] at hfind ⊢
        subst hfind
        exact h0
      | some query =>
        cases hi : dtStatusFailed env.init with
        | true =>
          simp only [GetNavMeshQuery, hd, hq, ha, hi, if_true, Option.some.injEq] at hfind ⊢
          subst hfind
          exact h0
        | false =>
          simp only [GetNavMeshQuery, hd, hq, ha, hi, Bool.false_eq_true, if_false,
            Table.find_assign_self _ _ _ _ hd, Option.some.injEq] at hfind ⊢
          subst hfind
          exact h0

theorem unloadMapInstance_mesh_at (s : MMapManager) (mapId instanceId : Nat)
    (g : Nat → List dtTileRef) (hinv : meshConsistent s g) (d : MMapData)
    (hfind : (unloadMapInstance s mapId instanceId).state.loadedMMaps.find mapId = some d) :
    meshAfter (unloadMapInstance s mapId instanceId).events (g mapId) =
        d.mmapLoadedTiles.map Prod.snd ∧
      (d.mmapLoadedTiles.map Prod.fst).Nodup ∧ (d.mmapLoadedTiles.map Prod.snd).Nodup := by
  cases hd : s.loadedMMaps.find mapId with
  | none => simp [unloadMapInstance, hd] at hfind
  | some d0 =>
    have h0 := hinv.2 mapId d0 hd
    cases hq : d0.navMeshQueries.find instanceId with
    | none =>
      simp only [unloadMapInstance, hd, hq, Option.some.injEq] at hfind ⊢
      subst hfind
      exact h0
    | some query =>
      simp only [unloadMapInstance, hd, hq, Table.find_assign_self _ _ _ _ hd,
        Option.some.injEq] at hfind ⊢
      subst hfind
      exact h0

/-- One call keeps the mesh contents in agreement with the state, provided the
mesh hands out a fresh reference. -/
theorem meshConsistent_step (k : Consts) (op : Op) (s : MMapManager)
    (g : Nat → List dtTileRef) (hinv : meshConsistent s g) (hfresh : freshTileRef op g) :
    meshConsistent (op.run k s).state (meshStep k op s g) := by
  have key : ∀ d, (op.run k s).state.loadedMMaps.find op.mapId = some d →
      meshAfter (op.run k s).events (g op.mapId) = d.mmapLoadedTiles.map Prod.snd ∧
      (d.mmapLoadedTiles.map Prod.fst).Nodup ∧ (d.mmapLoadedTiles.map Prod.snd).Nodup := by
    intro d hfind
    cases op with
    | loadMapData env mapId =>
      have h := (meshConsistent_loadMapData env s mapId g hinv).2 mapId d hfind
      exact ⟨(meshAfter_loadMapData env s mapId (g mapId)).trans h.1, h.2⟩
    | loadMap menv tenv mapId x y =>
      exact loadMap_mesh_at k menv tenv s mapId x y g hinv hfresh d hfind
    | unloadMap rm mapId x y => exact unloadMap_mesh_at rm s mapId x y g hinv d hfind
    | unloadMapAll rm mapId =>
      have hnone := unloadMapAll_find_self rm s mapId
      have hfind' : (unloadMapAll rm s mapId).state.loadedMMaps.find mapId = some d := hfind
      rw [hnone] at hfind'
      exact Option.noConfusion hfind'
    | GetNavMeshQuery env mapId instanceId =>
      exact GetNavMeshQuery_mesh_at env s mapId instanceId g hinv d hfind
    | unloadMapInstance mapId instanceId =>
      exact unloadMapInstance_mesh_at s mapId instanceId g hinv d hfind
  constructor
  · intro m hm
    by_cases h : m = op.mapId
    · subst h
      simp [meshStep, hm]
    · simp only [meshStep, h, if_false]
      exact hinv.1 m (by rw [← run_find_ne k op s m h]; exact hm)
  · intro m d hm
    by_cases h : m = op.mapId
    · subst h
      simp only [meshStep, if_true, hm]
      exact key d hm
    · simp only [meshStep, h, if_false]
      exact hinv.2 m d (by rw [← run_find_ne k op s m h]; exact hm)

/-- A sequence of calls keeps the mesh contents in agreement with the state. -/
theorem meshConsistent_runOpsMesh (k : Consts) (ops : List Op) :
    ∀ (s : MMapManager) (g : Nat → List dtTileRef) (s' : MMapManager)
      (g' : Nat → List dtTileRef),
      meshConsistent s g → freshTileRefs k ops s g →
      runOpsMesh k ops s g = some (s', g') → meshConsistent s' g' := by
  induction ops with
  | nil =>
    intro s g s' g' hinv _ hrun
    simp only [runOpsMesh, Option.some.injEq, Prod.mk.injEq] at hrun
    rw [← hrun.1, ← hrun.2]
    exact hinv
  | cons op ops ih =>
    intro s g s' g' hinv hfresh hrun
    simp only [runOpsMesh] at hrun
    cases hret : (op.run k s).ret with
    | none => simp [hret] at hrun
    | some u =>
      simp only [hret] at hrun
      exact ih _ _ s' g' (meshConsistent_step k op s g hinv hfresh.1) hfresh.2 hrun

/-- The tile sets after one call: a call adds at most the entry of a `loadMap`
whose `addTile` reported success. -/
theorem run_added_entry (k : Consts) (op : Op) (s : MMapManager) (m : Nat)
    (e : Nat × dtTileRef) (hin : e ∈ loadedTilesOf (op.run k s).state m)
    (hout : e ∉ loadedTilesOf s m) :
    ∃ menv tenv x y, op = .loadMap menv tenv m x y ∧
      dtStatusSucceed tenv.addTile = true ∧ e = (packTileID x y, tenv.tileRef) := by
  by_cases hm : m = op.mapId
  swap
  · have h := run_find_ne k op s m hm
    simp only [loadedTilesOf, h] at hin
    exact absurd hin hout
  subst hm
  cases op with
  | loadMapData env mapId =>
    have h : loadedTilesOf (loadMapData env s mapId).state mapId = loadedTilesOf s mapId :=
      loadMapData_loadedTilesOf env s mapId mapId
    exact absurd (h ▸ hin) hout
  | loadMap menv tenv mapId x y =>
    have hin' : e ∈ loadedTilesOf (loadMap k menv tenv s mapId x y).state mapId := hin
    have hout' : e ∉ loadedTilesOf s mapId := hout
    by_cases hret : (loadMap k menv tenv s mapId x y).ret = some true
    · obtain ⟨mmap, hfind, _, hst⟩ := loadMap_state_of_ret_true k menv tenv s mapId x y hret
      have hold : loadedTilesOf s mapId = mmap.mmapLoadedTiles := by
        rw [← loadMapData_loadedTilesOf menv s mapId mapId]
        simp [loadedTilesOf, hfind]
      rw [hst] at hin'
      simp only [loadedTilesOf, Table.find_assign_self _ _ _ _ hfind, List.mem_cons] at hin'
      rcases hin' with he | he
      · exact ⟨menv, tenv, x, y, rfl,
          loadMap_ret_true_addTile k menv tenv s mapId x y hret, he⟩
      · exact absurd (hold ▸ he) hout'
    · rw [loadMap_state_of_ret_ne_true k menv tenv s mapId x y hret,
        loadMapData_loadedTilesOf] at hin'
      exact absurd hin' hout'
  | unloadMap rm mapId x y =>
    have hin' : e ∈ loadedTilesOf (unloadMap rm s mapId x y).state mapId := hin
    have hout' : e ∉ loadedTilesOf s mapId := hout
    exfalso
    apply hout'
    unfold unloadMap at hin'
    cases hd : s.loadedMMaps.find mapId with
    | none => simp [hd, loadedTilesOf] at hin'
    | some d =>
      simp only [hd] at hin'
      cases ht : d.mmapLoadedTiles.find (packTileID x y) with
      | none => simpa [ht, hd, loadedTilesOf] using hin'
      | some tileRef =>
        cases hrm : dtStatusFailed rm with
        | true => simpa [ht, hrm, hd, loadedTilesOf] using hin'
        | false =>
          simp only [ht, hrm, Bool.false_eq_true, if_false, loadedTilesOf,
            Table.find_assign_self _ _ _ _ hd] at hin'
          simp only [loadedTilesOf, hd]
          exact Table.mem_of_mem_erase _ _ _ hin'
  | unloadMapAll rm mapId =>
    have hin' : e ∈ loadedTilesOf (unloadMapAll rm s mapId).state mapId := hin
    simp [loadedTilesOf, unloadMapAll_find_self] at hin'
  | GetNavMeshQuery env mapId instanceId =>
    have hin' : e ∈ loadedTilesOf (GetNavMeshQuery env s mapId instanceId).state mapId := hin
    have hout' : e ∉ loadedTilesOf s mapId := hout
    exfalso
    apply hout'
    cases hd : s.loadedMMaps.find mapId with
    | none => simp [GetNavMeshQuery, hd, loadedTilesOf] at hin'
    | some d =>
      have hsame : loadedTilesOf (GetNavMeshQuery env s mapId instanceId).state mapId =
          d.mmapLoadedTiles := by
        unfold GetNavMeshQuery
        simp only [hd]
        repeat' split
        all_goals simp [loadedTilesOf, hd, Table.find_assign_self _ _ _ _ hd]
      rw [hsame] at hin'
      simpa [loadedTilesOf, hd] using hin'
  | unloadMapInstance mapId instanceId =>
    have hin' : e ∈ loadedTilesOf (unloadMapInstance s mapId instanceId).state mapId := hin
    have hout' : e ∉ loadedTilesOf s mapId := hout
    exfalso
    apply hout'
    cases hd : s.loadedMMaps.find mapId with
    | none => simp [unloadMapInstance, hd, loadedTilesOf] at hin'
    | some d =>
      have hsame : loadedTilesOf (unloadMapInstance s mapId instanceId).state mapId =
          d.mmapLoadedTiles := by
        unfold unloadMapInstance
        simp only [hd]
        repeat' split
        all_goals simp [loadedTilesOf, hd, Table.find_assign_self _ _ _ _ hd]
      rw [hsame] at hin'
      simpa [loadedTilesOf, hd] using hin'

/-- The tile sets after one call: a call drops an entry only as an
`unloadMap(mapId, x, y)` of its key whose `removeTile` did not fail, or as an
`unloadMap(mapId)` of its map. -/
theorem run_removed_entry (k : Consts) (op : Op) (s : MMapManager) (m : Nat)
    (e : Nat × dtTileRef) (hin : e ∈ loadedTilesOf s m)
    (hout : e ∉ loadedTilesOf (op.run k s).state m) :
    (∃ rm x y, op = .unloadMap rm m x y ∧ dtStatusFailed rm = false ∧
      e.1 = packTileID x y) ∨
    (∃ rm, op = .unloadMapAll rm m) := by
  by_cases hm : m = op.mapId
  swap
  · have h := run_find_ne k op s m hm
    simp only [loadedTilesOf, h] at hout
    exact absurd hin hout
  subst hm
  cases op with
  | loadMapData env mapId =>
    have h : loadedTilesOf (loadMapData env s mapId).state mapId = loadedTilesOf s mapId :=
      loadMapData_loadedTilesOf env s mapId mapId
    exact absurd (h ▸ hin) hout
  | loadMap menv tenv mapId x y =>
    have hin' : e ∈ loadedTilesOf s mapId := hin
    have hout' : e ∉ loadedTilesOf (loadMap k menv tenv s mapId x y).state mapId := hout
    exfalso
    apply hout'
    by_cases hret : (loadMap k menv tenv s mapId x y).ret = some true
    · obtain ⟨mmap, hfind, _, hst⟩ := loadMap_state_of_ret_true k menv tenv s mapId x y hret
      have hold : loadedTilesOf s mapId = mmap.mmapLoadedTiles := by
        rw [← loadMapData_loadedTilesOf menv s mapId mapId]
        simp [loadedTilesOf, hfind]
      rw [hst]
      simp only [loadedTilesOf, Table.find_assign_self _ _ _ _ hfind, List.mem_cons]
      exact Or.inr (hold ▸ hin')
    · rw [loadMap_state_of_ret_ne_true k menv tenv s mapId x y hret,
        loadMapData_loadedTilesOf]
      exact hin'
  | unloadMap rm mapId x y =>
    have hin' : e ∈ loadedTilesOf s mapId := hin
    have hout' : e ∉ loadedTilesOf (unloadMap rm s mapId x y).state mapId := hout
    left
    refine ⟨rm, x, y, rfl, ?_⟩
    unfold unloadMap at hout'
    cases hd : s.loadedMMaps.find mapId with
    | none => simp [hd, loadedTilesOf] at hin'
    | some d =>
      simp only [hd] at hout'
      simp only [loadedTilesOf, hd] at hin'
      cases ht : d.mmapLoadedTiles.find (packTileID x y) with
      | none =>
        simp only [ht, loadedTilesOf, hd] at hout'
        exact absurd hin' hout'
      | some tileRef =>
        cases hrm : dtStatusFailed rm with
        | true =>
          simp only [ht, hrm, if_true, loadedTilesOf, hd] at hout'
          exact absurd hin' hout'
        | false =>
          simp only [ht, hrm, Bool.false_eq_true, if_false, loadedTilesOf,
            Table.find_assign_self _ _ _ _ hd] at hout'
          exact ⟨rfl, Table.key_eq_of_not_mem_erase _ _ _ hin' hout'⟩
  | unloadMapAll rm mapId => exact Or.inr ⟨rm, rfl⟩
  | GetNavMeshQuery env mapId instanceId =>
    have hin' : e ∈ loadedTilesOf s mapId := hin
    have hout' : e ∉ loadedTilesOf (GetNavMeshQuery env s mapId instanceId).state mapId :=
      hout
    exfalso
    apply hout'
    cases hd : s.loadedMMaps.find mapId with
    | none => simp [hd, loadedTilesOf] at hin'
    | some d =>
      have hsame : loadedTilesOf (GetNavMeshQuery env s mapId instanceId).state mapId =
          d.mmapLoadedTiles := by
        unfold GetNavMeshQuery
        simp only [hd]
        repeat' split
        all_goals simp [loadedTilesOf, hd, Table.find_assign_self _ _ _ _ hd]
      rw [hsame]
      simpa [loadedTilesOf, hd] using hin'
  | unloadMapInstance mapId instanceId =>
    have hin' : e ∈ loadedTilesOf s mapId := hin
    have hout' : e ∉ loadedTilesOf (unloadMapInstance s mapId instanceId).state mapId := hout
    exfalso
    apply hout'
    cases hd : s.loadedMMaps.find mapId with
    | none => simp [hd, loadedTilesOf] at hin'
    | some d =>
      have hsame : loadedTilesOf (unloadMapInstance s mapId instanceId).state mapId =
          d.mmapLoadedTiles := by
        unfold unloadMapInstance
        simp only [hd]
        repeat' split
        all_goals simp [loadedTilesOf, hd, Table.find_assign_self _ _ _ _ hd]
      rw [hsame]
      simpa [loadedTilesOf, hd] using hin'

/-- The loop of `unloadMap(mapId)` subtracts from the counter the number of
entries whose removal did not fail. -/
theorem unloadMapLoop_counter (mapId : Nat) (mesh : Ptr) (rm : Nat → dtStatus)
    (l : List (Nat × dtTileRef)) (i : Nat) (n : Int) :
    (unloadMapLoop mapId mesh rm l i n).2 = n - l.length + failedRemovals rm i l.length := by
  induction l generalizing i n with
  | nil => simp [unloadMapLoop, failedRemovals]
  | cons e l ih =>
    obtain ⟨key, tileRef⟩ := e
    cases h : dtStatusFailed (rm i) with
    | true =>
      simp only [unloadMapLoop, h, if_true, ih (i + 1) n, List.length_cons, failedRemovals]
      push_cast
      ring
    | false =>
      simp only [unloadMapLoop, h, Bool.false_eq_true, if_false, ih (i + 1) (n - 1),
        List.length_cons, failedRemovals]
      push_cast
      ring

theorem uniqueKeys_loadMapData (env : MapDataEnv) (s : MMapManager) (mapId : Nat)
    (h : uniqueKeys s) : uniqueKeys (loadMapData env s mapId).state := by
  rcases loadMapData_state_cases env s mapId with hs | ⟨hnone, mesh, hs⟩
  · rw [hs]; exact h
  · rw [hs]
    constructor
    · simp only [List.map_cons, List.nodup_cons]
      exact ⟨Table.not_mem_keys_of_find_none _ _ hnone, h.1⟩
    · intro m d hm
      by_cases hmm : mapId = m
      · simp only [Table.find, hmm, if_true, Option.some.injEq] at hm
        subst hm
        simp
      · simp only [Table.find, hmm, if_false] at hm
        exact h.2 m d hm

theorem totalTiles_loadMapData (env : MapDataEnv) (s : MMapManager) (mapId : Nat) :
    totalTiles (loadMapData env s mapId).state = totalTiles s := by
  rcases loadMapData_state_cases env s mapId with hs | ⟨_, mesh, hs⟩
  · rw [hs]
  · rw [hs]
    simp [totalTiles]

/-- Replacing the record of a map keeps every map with one record; the tile
keys stay distinct when those of the new record are. -/
theorem uniqueKeys_assign (s : MMapManager) (mapId : Nat) (d : MMapData) (n : Int)
    (h : uniqueKeys s) (hd : (d.mmapLoadedTiles.map Prod.fst).Nodup) :
    uniqueKeys ⟨s.loadedMMaps.assign mapId d, n⟩ := by
  constructor
  · simp only [Table.keys_assign]
    exact h.1
  · intro m d' hm
    by_cases hmm : mapId = m
    · subst hmm
      cases hf : s.loadedMMaps.find mapId with
      | none =>
        have hnone : (s.loadedMMaps.assign mapId d).find mapId = none := by
          apply Table.find_eq_none_of_not_mem_keys
          rw [Table.keys_assign]
          exact Table.not_mem_keys_of_find_none _ _ hf
        simp only at hm
        rw [hnone] at hm
        exact Option.noConfusion hm
      | some d0 =>
        simp only [Table.find_assign_self _ _ _ _ hf, Option.some.injEq] at hm
        subst hm
        exact hd
    · simp only [Table.find_assign_ne _ _ _ _ hmm] at hm
      exact h.2 m d' hm

/-- One call that returns keeps the keys distinct, and moves the counter and
the number of tile entries together, except for the removals that fail inside
`unloadMap(mapId)`, whose entries go uncounted. -/
theorem counter_step (k : Consts) (op : Op) (s : MMapManager) (hwf : uniqueKeys s)
    (hret : (op.run k s).ret ≠ none) :
    uniqueKeys (op.run k s).state ∧
    (op.run k s).state.loadedTiles - totalTiles (op.run k s).state =
      s.loadedTiles - totalTiles s + op.failedRemovals s := by
  cases op with
  | loadMapData env mapId =>
    refine ⟨uniqueKeys_loadMapData env s mapId hwf, ?_⟩
    show (loadMapData env s mapId).state.loadedTiles -
      totalTiles (loadMapData env s mapId).state = _
    rw [loadMapData_loadedTiles, totalTiles_loadMapData]
    simp [Op.failedRemovals]
  | loadMap menv tenv mapId x y =>
    show uniqueKeys (loadMap k menv tenv s mapId x y).state ∧
      (loadMap k menv tenv s mapId x y).state.loadedTiles -
        totalTiles (loadMap k menv tenv s mapId x y).state = _
    have hwf1 := uniqueKeys_loadMapData menv s mapId hwf
    by_cases hr : (loadMap k menv tenv s mapId x y).ret = some true
    · obtain ⟨mmap, hm, ht, hst⟩ := loadMap_state_of_ret_true k menv tenv s mapId x y hr
      rw [hst]
      refine ⟨uniqueKeys_assign _ mapId _ _ hwf1 ?_, ?_⟩
      · simp only [List.map_cons, List.nodup_cons]
        exact ⟨Table.not_mem_keys_of_find_none _ _ ht, hwf1.2 mapId mmap hm⟩
      · have hsum := Table.sum_assign (fun d : MMapData => d.mmapLoadedTiles.length)
          (loadMapData menv s mapId).state.loadedMMaps mapId mmap
          { mmap with mmapLoadedTiles :=
              (packTileID x y, tenv.tileRef) :: mmap.mmapLoadedTiles } hm
        have htot := totalTiles_loadMapData menv s mapId
        simp only [totalTiles, List.length_cons, Op.failedRemovals] at hsum htot ⊢
        omega
    · rw [loadMap_state_of_ret_ne_true k menv tenv s mapId x y hr, loadMapData_loadedTiles,
        totalTiles_loadMapData]
      exact ⟨hwf1, by simp [Op.failedRemovals]⟩
  | unloadMap rm mapId x y =>
    have hret' : (unloadMap rm s mapId x y).ret ≠ none := by
      intro h
      apply hret
      show (unloadMap rm s mapId x y).returned.ret = none
      simp [Run.returned, h]
    show uniqueKeys (unloadMap rm s mapId x y).state ∧
      (unloadMap rm s mapId x y).state.loadedTiles -
        totalTiles (unloadMap rm s mapId x y).state = _
    cases hd : s.loadedMMaps.find mapId with
    | none => simp [unloadMap, hd, hwf, Op.failedRemovals]
    | some d =>
      cases ht : d.mmapLoadedTiles.find (packTileID x y) with
      | none => simp [unloadMap, hd, ht, hwf, Op.failedRemovals]
      | some tileRef =>
        cases hrm : dtStatusFailed rm with
        | true => simp [unloadMap, hd, ht, hrm] at hret'
        | false =>
          have hkeys := hwf.2 mapId d hd
          simp only [unloadMap, hd, ht, hrm, Bool.false_eq_true, if_false]
          refine ⟨uniqueKeys_assign _ mapId _ _ hwf (Table.keys_erase_nodup _ _ hkeys), ?_⟩
          have hsum := Table.sum_assign (fun d : MMapData => d.mmapLoadedTiles.length)
            s.loadedMMaps mapId d
            { d with mmapLoadedTiles := d.mmapLoadedTiles.erase (packTileID x y) } hd
          have hlen := Table.length_erase _ _ _ hkeys ht
          simp only [totalTiles, Op.failedRemovals] at hsum ⊢
          omega
  | unloadMapAll rm mapId =>
    show uniqueKeys (unloadMapAll rm s mapId).state ∧
      (unloadMapAll rm s mapId).state.loadedTiles -
        totalTiles (unloadMapAll rm s mapId).state = _
    cases hd : s.loadedMMaps.find mapId with
    | none => simp [unloadMapAll, hd, hwf, Op.failedRemovals, loadedTilesOf, failedRemovals]
    | some d =>
      simp only [unloadMapAll, hd, unloadMapLoop_counter, Op.failedRemovals, loadedTilesOf]
      constructor
      · constructor
        · exact Table.keys_erase_nodup _ _ hwf.1
        · intro m d' hm
          by_cases hmm : mapId = m
          · subst hmm
            simp only [Table.find_erase_self] at hm
            exact Option.noConfusion hm
          · simp only [Table.find_erase_ne _ _ _ hmm] at hm
            exact hwf.2 m d' hm
      · have hsum := Table.sum_erase (fun d : MMapData => d.mmapLoadedTiles.length)
          s.loadedMMaps mapId d hwf.1 hd
        simp only [totalTiles] at hsum ⊢
        omega
  | GetNavMeshQuery env mapId instanceId =>
    show uniqueKeys (GetNavMeshQuery env s mapId instanceId).state ∧
      (GetNavMeshQuery env s mapId instanceId).state.loadedTiles -
        totalTiles (GetNavMeshQuery env s mapId instanceId).state = _
    cases hd : s.loadedMMaps.find mapId with
    | none => simp [GetNavMeshQuery, hd, hwf, Op.failedRemovals]
    | some d =>
      cases hq : d.navMeshQueries.find instanceId with
      | some query => simp [GetNavMeshQuery, hd, hq, hwf, Op.failedRemovals]
      | none =>
        cases ha : env.query with
        | none => simp [GetNavMeshQuery, hd, hq, ha, hwf, Op.failedRemovals]
        | some query =>
          cases hi : dtStatusFailed env.init with
          | true => simp [GetNavMeshQuery, hd, hq, ha, hi, hwf, Op.failedRemovals]
          | false =>
            simp only [GetNavMeshQuery, hd, hq, ha, hi, Bool.false_eq_true, if_false]
            refine ⟨uniqueKeys_assign _ mapId _ _ hwf (hwf.2 mapId d hd), ?_⟩
            have hsum := Table.sum_assign (fun d : MMapData => d.mmapLoadedTiles.length)
              s.loadedMMaps mapId d
              { d with navMeshQueries := d.navMeshQueries.insert instanceId query } hd
            simp only [totalTiles, Op.failedRemovals] at hsum ⊢
            omega
  | unloadMapInstance mapId instanceId =>
    show uniqueKeys (unloadMapInstance s mapId instanceId).state ∧
      (unloadMapInstance s mapId instanceId).state.loadedTiles -
        totalTiles (unloadMapInstance s mapId instanceId).state = _
    cases hd : s.loadedMMaps.find mapId with
    | none => simp [unloadMapInstance, hd, hwf, Op.failedRemovals]
    | some d =>
      cases hq : d.navMeshQueries.find instanceId with
      | none => simp [unloadMapInstance, hd, hq, hwf, Op.failedRemovals]
      | some query =>
        simp only [unloadMapInstance, hd, hq]
        refine ⟨uniqueKeys_assign _ mapId _ _ hwf (hwf.2 mapId d hd), ?_⟩
        have hsum := Table.sum_assign (fun d : MMapData => d.mmapLoadedTiles.length)
          s.loadedMMaps mapId d
          { d with navMeshQueries := d.navMeshQueries.erase instanceId } hd
        simp only [totalTiles, Op.failedRemovals] at hsum ⊢
        omega

/-- Along a sequence of calls none of which ends at a failed `ASSERT`, the
counter exceeds the number of tile entries by the number of removals that
failed inside `unloadMap(mapId)` calls. -/
theorem counter_runOps (k : Consts) (ops : List Op) :
    ∀ (s s' : MMapManager), uniqueKeys s → runOps k ops s = some s' →
      uniqueKeys s' ∧
      s'.loadedTiles - totalTiles s' =
        s.loadedTiles - totalTiles s + failedBulkRemovals k ops s := by
  induction ops with
  | nil =>
    intro s s' hwf hrun
    simp only [runOps, Option.some.injEq] at hrun
    subst hrun
    exact ⟨hwf, by simp [failedBulkRemovals]⟩
  | cons op ops ih =>
    intro s s' hwf hrun
    simp only [runOps] at hrun
    cases hret : (op.run k s).ret with
    | none => simp [hret] at hrun
    | some u =>
      simp only [hret] at hrun
      obtain ⟨hwf1, hstep⟩ := counter_step k op s hwf (by rw [hret]; exact Option.some_ne_none u)
      obtain ⟨hwf2, hrest⟩ := ih _ s' hwf1 hrun
      refine ⟨hwf2, ?_⟩
      simp only [failedBulkRemovals]
      push_cast
      omega

/-- From the empty manager: the counter is the number of tile entries plus the
number of removals that failed inside `unloadMap(mapId)` calls; the two are
equal when no such removal failed. -/
theorem loadedTiles_eq_totalTiles_add_failed (k : Consts) (ops : List Op) (s : MMapManager)
    (h : runOps k ops ⟨[], 0⟩ = some s) :
    s.loadedTiles = totalTiles s + failedBulkRemovals k ops ⟨[], 0⟩ ∧
    (failedBulkRemovals k ops ⟨[], 0⟩ = 0 → s.loadedTiles = totalTiles s) := by
  have hwf : uniqueKeys ⟨[], 0⟩ :=
    ⟨by simp, fun m d hm => by simp [Table.find] at hm⟩
  obtain ⟨_, hc⟩ := counter_runOps k ops ⟨[], 0⟩ s hwf h
  simp only [totalTiles, List.map_nil, List.sum_nil] at hc
  constructor
  · simp only [totalTiles]
    omega
  · intro h0
    simp only [totalTiles, h0] at hc ⊢
    omega

theorem stored_mem_queryHandles (s : MMapManager) (mapId : Nat) (d : MMapData) (q : Ptr)
    (hd : s.loadedMMaps.find mapId = some d)
    (hq : q ∈ d.navMeshQueries.map Prod.snd) : q ∈ queryHandles s := by
  unfold queryHandles
  rw [List.mem_flatMap]
  exact ⟨(mapId, d), Table.mem_of_find _ _ _ hd, hq⟩

/-- One call keeps every query object stored once, provided the allocator
hands out a fresh object. -/
theorem queriesStoredOnce_step (k : Consts) (op : Op) (s : MMapManager)
    (hinv : queriesStoredOnce s) (hfresh : freshQuery op s) :
    queriesStoredOnce (op.run k s).state := by
  intro m d' hm
  by_cases hmm : m = op.mapId
  swap
  · rw [run_find_ne k op s m hmm] at hm
    exact hinv m d' hm
  subst hmm
  cases op with
  | loadMapData env mapId =>
    have hm' : (loadMapData env s mapId).state.loadedMMaps.find mapId = some d' := hm
    rcases loadMapData_state_cases env s mapId with hs | ⟨_, mesh, hs⟩
    · rw [hs] at hm'
      exact hinv mapId d' hm'
    · rw [hs] at hm'
      simp only [Table.find, if_true, Option.some.injEq] at hm'
      subst hm'
      simp
  | loadMap menv tenv mapId x y =>
    have hm' : (loadMap k menv tenv s mapId x y).state.loadedMMaps.find mapId = some d' := hm
    have hinv1 : queriesStoredOnce (loadMapData menv s mapId).state := by
      intro m d hmd
      rcases loadMapData_state_cases menv s mapId with hs | ⟨_, mesh, hs⟩
      · rw [hs] at hmd
        exact hinv m d hmd
      · rw [hs] at hmd
        by_cases h : mapId = m
        · simp only [Table.find, h, if_true, Option.some.injEq] at hmd
          subst hmd
          simp
        · simp only [Table.find, h, if_false] at hmd
          exact hinv m d hmd
    by_cases hret : (loadMap k menv tenv s mapId x y).ret = some true
    · obtain ⟨mmap, hfind, _, hst⟩ := loadMap_state_of_ret_true k menv tenv s mapId x y hret
      rw [hst] at hm'
      simp only [Table.find_assign_self _ _ _ _ hfind, Option.some.injEq] at hm'
      subst hm'
      exact hinv1 mapId mmap hfind
    · rw [loadMap_state_of_ret_ne_true k menv tenv s mapId x y hret] at hm'
      exact hinv1 mapId d' hm'
  | unloadMap rm mapId x y =>
    have hm' : (unloadMap rm s mapId x y).state.loadedMMaps.find mapId = some d' := hm
    cases hd : s.loadedMMaps.find mapId with
    | none => simp [unloadMap, hd] at hm'
    | some d =>
      have h0 := hinv mapId d hd
      cases ht : d.mmapLoadedTiles.find (packTileID x y) with
      | none =>
        simp only [unloadMap, hd, ht, Option.some.injEq] at hm'
        subst hm'
        exact h0
      | some tileRef =>
        cases hrm : dtStatusFailed rm with
        | true =>
          simp only [unloadMap, hd, ht, hrm, if_true, Option.some.injEq] at hm'
          subst hm'
          exact h0
        | false =>
          simp only [unloadMap, hd, ht, hrm, Bool.false_eq_true, if_false,
            Table.find_assign_self _ _ _ _ hd, Option.some.injEq] at hm'
          subst hm'
          exact h0
  | unloadMapAll rm mapId =>
    have hm' : (unloadMapAll rm s mapId).state.loadedMMaps.find mapId = some d' := hm
    rw [unloadMapAll_find_self] at hm'
    exact Option.noConfusion hm'
  | GetNavMeshQuery env mapId instanceId =>
    have hm' : (GetNavMeshQuery env s mapId instanceId).state.loadedMMaps.find mapId =
        some d' := hm
    cases hd : s.loadedMMaps.find mapId with
    | none => simp [GetNavMeshQuery, hd] at hm'
    | some d =>
      have h0 := hinv mapId d hd
      cases hq : d.navMeshQueries.find instanceId with
      | some query =>
        simp only [GetNavMeshQuery, hd, hq, Option.some.injEq] at hm'
        subst hm'
        exact h0
      | none =>
        cases ha : env.query with
        | none =>
          simp only [GetNavMeshQuery, hd, hq, ha, Option.some.injEq] at hm'
          subst hm'
          exact h0
        | some query =>
          cases hi : dtStatusFailed env.init with
          | true =>
            simp only [GetNavMeshQuery, hd, hq, ha, hi, if_true, Option.some.injEq] at hm'
            subst hm'
            exact h0
          | false =>
            simp only [GetNavMeshQuery, hd, hq, ha, hi, Bool.false_eq_true, if_false,
              Table.find_assign_self _ _ _ _ hd, Option.some.injEq,
              Table.insert_of_find_none _ _ _ hq] at hm'
            subst hm'
            simp only [List.map_cons, List.nodup_cons]
            exact ⟨fun hin => hfresh query ha (stored_mem_queryHandles s mapId d query hd hin),
              h0⟩
  | unloadMapInstance mapId instanceId =>
    have hm' : (unloadMapInstance s mapId instanceId).state.loadedMMaps.find mapId =
        some d' := hm
    cases hd : s.loadedMMaps.find mapId with
    | none => simp [unloadMapInstance, hd] at hm'
    | some d =>
      have h0 := hinv mapId d hd
      cases hq : d.navMeshQueries.find instanceId with
      | none =>
        simp only [unloadMapInstance, hd, hq, Option.some.injEq] at hm'
        subst hm'
        exact h0
      | some query =>
        simp only [unloadMapInstance, hd, hq, Table.find_assign_self _ _ _ _ hd,
          Option.some.injEq] at hm'
        subst hm'
        exact Table.values_erase_nodup _ _ h0

/-- In every state reached from the empty manager by calls that meet a fresh
allocator of query objects, no record stores a query object under two
instances. -/
theorem queriesStoredOnce_runOps (k : Consts) (ops : List Op) :
    ∀ (s s' : MMapManager), queriesStoredOnce s → freshQueries k ops s →
      runOps k ops s = some s' → queriesStoredOnce s' := by
  induction ops with
  | nil =>
    intro s s' hinv _ hrun
    simp only [runOps, Option.some.injEq] at hrun
    subst hrun
    exact hinv
  | cons op ops ih =>
    intro s s' hinv hfresh hrun
    simp only [runOps] at hrun
    cases hret : (op.run k s).ret with
    | none => simp [hret] at hrun
    | some u =>
      simp only [hret] at hrun
      exact ih _ s' (queriesStoredOnce_step k op s hinv hfresh.1) hfresh.2 hrun

end MMapManager

/-! ## The claims -/

open MMapManager

/-- C1 (uniqueness of `loadMap`): whenever a first `loadMap` of a tile returns
`true`, a second `loadMap` of the same tile, whatever the files and the mesh
would answer, returns `false` at the already-loaded check: it makes no external
call at all (no `fopen`, no `addTile`, no log line), it leaves the state of the
first call unchanged, and the counter after both calls is the initial counter
plus one. -/
theorem C1_loadMap_twice (k : Consts) (menv menv2 : MapDataEnv) (tenv tenv2 : TileEnv)
    (s : MMapManager) (mapId : Nat) (x y : Int)
    (h : (loadMap k menv tenv s mapId x y).ret = some true) :
    loadMap k menv2 tenv2 (loadMap k menv tenv s mapId x y).state mapId x y =
        ⟨[], (loadMap k menv tenv s mapId x y).state, some false⟩ ∧
      (loadMap k menv2 tenv2 (loadMap k menv tenv s mapId x y).state mapId x y
        ).state.loadedTiles = s.loadedTiles + 1 := by
  obtain ⟨mmap, hr, hm, ht, he⟩ := loadMap_ret_true k menv tenv s mapId x y h
  have hst := loadMapTile_ret_true k tenv _ _ mmap mapId x y (he ▸ h)
  rw [← he] at hst
  have hfind : (loadMap k menv tenv s mapId x y).state.loadedMMaps.find mapId =
      some { mmap with mmapLoadedTiles :=
               mmap.mmapLoadedTiles.insert (packTileID x y) tenv.tileRef } := by
    rw [hst]
    exact Table.find_assign_self _ _ _ _ hm
  have hsecond : loadMap k menv2 tenv2 (loadMap k menv tenv s mapId x y).state mapId x y =
      ⟨[], (loadMap k menv tenv s mapId x y).state, some false⟩ := by
    exact loadMap_of_tile_loaded k menv2 tenv2 _ mapId x y _ _ hfind
      (Table.find_insert_self _ _ _)
  refine ⟨hsecond, ?_⟩
  rw [hsecond, hst]
  simp [loadMapData_loadedTiles]

/-- Witness of C1: on the empty manager a first `loadMap` of tile (5, 7) of
map 1 succeeds, and the second one is rejected even though its files are gone. -/
theorem C1_loadMap_twice_witness :
    (loadMap kSample menvGood tenvGood sEmpty 1 5 7).ret = some true ∧
    (loadMap kSample menvNoFile tenvNoFile
        (loadMap kSample menvGood tenvGood sEmpty 1 5 7).state 1 5 7 =
        ⟨[], (loadMap kSample menvGood tenvGood sEmpty 1 5 7).state, some false⟩ ∧
      (loadMap kSample menvNoFile tenvNoFile
        (loadMap kSample menvGood tenvGood sEmpty 1 5 7).state 1 5 7
        ).state.loadedTiles = sEmpty.loadedTiles + 1) :=
  ⟨by decide, C1_loadMap_twice kSample menvGood menvNoFile tenvGood tenvNoFile sEmpty 1 5 7
    (by decide)⟩

/-- C2 (round trip of `loadMap` and `unloadMap(mapId, x, y)`): on a state where
the map is loaded and the tile is not, if `loadMap` returns `true` and the
`removeTile` of the following `unloadMap` does not fail, then `unloadMap`
returns `true`, the counter and the map's tile set are back at their values
before the load (the whole state is), and a further `loadMap` of the tile from
the same file, with its buffer allocated and `addTile` succeeding, returns
`true` again. -/
theorem C2_load_unload_roundtrip (k : Consts) (menv menv3 : MapDataEnv)
    (tenv tenv3 : TileEnv) (rm : dtStatus) (s : MMapManager) (mapId : Nat) (x y : Int)
    (d : MMapData)
    (hd : s.loadedMMaps.find mapId = some d)
    (ht : d.mmapLoadedTiles.find (packTileID x y) = none)
    (hload : (loadMap k menv tenv s mapId x y).ret = some true)
    (hrm : dtStatusFailed rm = false)
    (hfile : tenv3.file = tenv.file) (hdata : tenv3.data.isSome = true)
    (hadd : dtStatusSucceed tenv3.addTile = true) :
    (unloadMap rm (loadMap k menv tenv s mapId x y).state mapId x y).ret = some true ∧
    (unloadMap rm (loadMap k menv tenv s mapId x y).state mapId x y).state.loadedTiles =
      s.loadedTiles ∧
    ((unloadMap rm (loadMap k menv tenv s mapId x y).state mapId x y
      ).state.loadedMMaps.find mapId).map MMapData.mmapLoadedTiles =
      some d.mmapLoadedTiles ∧
    (unloadMap rm (loadMap k menv tenv s mapId x y).state mapId x y).state = s ∧
    (loadMap k menv3 tenv3
      (unloadMap rm (loadMap k menv tenv s mapId x y).state mapId x y).state mapId x y
      ).ret = some true := by
  have he := loadMap_of_tile_absent k menv tenv s mapId x y d hd ht
  have hst : (loadMap k menv tenv s mapId x y).state =
      ⟨s.loadedMMaps.assign mapId
         { d with mmapLoadedTiles := d.mmapLoadedTiles.insert (packTileID x y) tenv.tileRef },
       s.loadedTiles + 1⟩ := by
    rw [he]
    exact loadMapTile_ret_true k tenv [] s d mapId x y (he ▸ hload)
  have hun : unloadMap rm (loadMap k menv tenv s mapId x y).state mapId x y =
      ⟨[.removeTile d.navMesh tenv.tileRef rm, .log (.unloadMapUnloadedTile mapId x y)],
       s, some true⟩ := by
    rw [hst]
    unfold unloadMap
    simp only [Table.find_assign_self _ _ _ _ hd, Table.find_insert_self, ht, hrm,
      Option.getD_none, Table.erase_insert_of_find_none _ _ _ ht, Table.assign_assign,
      add_sub_cancel_right]
    have hself : s.loadedMMaps.assign mapId
        { navMesh := d.navMesh, mmapLoadedTiles := d.mmapLoadedTiles,
          navMeshQueries := d.navMeshQueries } = s.loadedMMaps :=
      Table.assign_of_find _ _ _ hd
    simp [hself]
  rw [hun]
  refine ⟨rfl, rfl, by simp [hd], rfl, ?_⟩
  rw [loadMap_of_tile_absent k menv3 tenv3 s mapId x y d hd ht]
  rw [he] at hload
  obtain ⟨file, fileHeader, data, h1, h2, h3, h4, _, h6, _⟩ :=
    (loadMapTile_ret_true_iff k tenv [] s d mapId x y).mp hload
  obtain ⟨data3, hdata3⟩ := Option.isSome_iff_exists.mp hdata
  exact (loadMapTile_ret_true_iff k tenv3 [] s d mapId x y).mpr
    ⟨file, fileHeader, data3, hfile.trans h1, h2, h3, h4, hdata3, h6, hadd⟩

/-- Witness of C2: map 1 is loaded without tiles; tile (5, 7) is loaded,
unloaded and loaded again from the same file into another buffer. -/
theorem C2_load_unload_roundtrip_witness :
    (unloadMap stOk (loadMap kSample menvGood tenvGood sNoTile 1 5 7).state 1 5 7).ret =
      some true ∧
    (unloadMap stOk (loadMap kSample menvGood tenvGood sNoTile 1 5 7).state 1 5 7
      ).state.loadedTiles = sNoTile.loadedTiles ∧
    ((unloadMap stOk (loadMap kSample menvGood tenvGood sNoTile 1 5 7).state 1 5 7
      ).state.loadedMMaps.find 1).map MMapData.mmapLoadedTiles = some [] ∧
    (unloadMap stOk (loadMap kSample menvGood tenvGood sNoTile 1 5 7).state 1 5 7).state =
      sNoTile ∧
    (loadMap kSample menvNoFile ⟨tenvGood.file, some 201, stOk, 10⟩
      (unloadMap stOk (loadMap kSample menvGood tenvGood sNoTile 1 5 7).state 1 5 7).state
      1 5 7).ret = some true :=
  C2_load_unload_roundtrip kSample menvGood menvNoFile tenvGood
    ⟨tenvGood.file, some 201, stOk, 10⟩ stOk sNoTile 1 5 7 ⟨100, [], []⟩
    (by decide) (by decide) (by decide) (by decide) rfl (by decide) (by decide)

/-- C3 (negative lookups of `unloadMap(mapId, x, y)`): when the map has no
record, or has one without an entry for the packed coordinate, the call returns
`false`, its only external call is the one log line of the lookup that missed
(so `removeTile` is not called and no `ASSERT` fails), and the whole state
(table of maps with every tile set and query set, and the counter) is
unchanged. -/
theorem C3_unloadMap_not_loaded (rm : dtStatus) (s : MMapManager) (mapId : Nat) (x y : Int)
    (h : s.loadedMMaps.find mapId = none ∨
      ∃ d, s.loadedMMaps.find mapId = some d ∧
        d.mmapLoadedTiles.find (packTileID x y) = none) :
    (unloadMap rm s mapId x y).ret = some false ∧
    (unloadMap rm s mapId x y).state = s ∧
    ((unloadMap rm s mapId x y).events = [.log (.unloadMapNotLoadedMap mapId x y)] ∨
     (unloadMap rm s mapId x y).events = [.log (.unloadMapNotLoadedTile mapId x y)]) ∧
    (∀ mesh tileRef st, Event.removeTile mesh tileRef st ∉ (unloadMap rm s mapId x y).events) ∧
    Event.assertFailed ∉ (unloadMap rm s mapId x y).events := by
  rcases h with h | ⟨d, hd, ht⟩
  · simp [unloadMap, h]
  · simp [unloadMap, hd, ht]

/-- Witness of C3: map 2 is not loaded, and map 1 is loaded without the tile
(6, 7); the two hypotheses are met one after the other. -/
theorem C3_unloadMap_not_loaded_witness :
    (sOneTile.loadedMMaps.find 2 = none ∧
      (unloadMap stFail sOneTile 2 5 7).ret = some false ∧
      (unloadMap stFail sOneTile 2 5 7).state = sOneTile) ∧
    ((∃ d, sOneTile.loadedMMaps.find 1 = some d ∧
        d.mmapLoadedTiles.find (packTileID 6 7) = none) ∧
      (unloadMap stFail sOneTile 1 6 7).ret = some false ∧
      (unloadMap stFail sOneTile 1 6 7).state = sOneTile) :=
  ⟨⟨by decide,
    (C3_unloadMap_not_loaded stFail sOneTile 2 5 7 (Or.inl (by decide))).1,
    (C3_unloadMap_not_loaded stFail sOneTile 2 5 7 (Or.inl (by decide))).2.1⟩,
   ⟨⟨dOneTile, by decide, by decide⟩,
    (C3_unloadMap_not_loaded stFail sOneTile 1 6 7
      (Or.inr ⟨dOneTile, by decide, by decide⟩)).1,
    (C3_unloadMap_not_loaded stFail sOneTile 1 6 7
      (Or.inr ⟨dOneTile, by decide, by decide⟩)).2.1⟩⟩

/-- C4 (bulk unload, `unloadMap(mapId)`): when the map is loaded with `N` tile
entries and none of the `N` calls of `removeTile` fails, the call returns
`true`, the counter afterwards is the counter before minus `N`, the map has no
record afterwards, the records of all other maps are unchanged, and a following
`loadMapData` of the map takes the path of a map that was never loaded: it
opens the `.mmap` file first and, when it returns `true`, the record it stored
holds the newly allocated mesh with no tile and no query. -/
theorem C4_unloadMapAll_count (rm : Nat → dtStatus) (menv : MapDataEnv) (s : MMapManager)
    (mapId N : Nat) (d : MMapData)
    (hd : s.loadedMMaps.find mapId = some d)
    (hN : d.mmapLoadedTiles.length = N)
    (hrm : ∀ i, i < N → dtStatusFailed (rm i) = false) :
    (unloadMapAll rm s mapId).ret = some true ∧
    (unloadMapAll rm s mapId).state.loadedTiles = s.loadedTiles - N ∧
    (unloadMapAll rm s mapId).state.loadedMMaps.find mapId = none ∧
    (∀ m, m ≠ mapId →
      (unloadMapAll rm s mapId).state.loadedMMaps.find m = s.loadedMMaps.find m) ∧
    (loadMapData menv (unloadMapAll rm s mapId).state mapId).events.head? =
      some (.fopen (.mmap mapId)) ∧
    ((loadMapData menv (unloadMapAll rm s mapId).state mapId).ret = some true →
      ∃ mesh, menv.mesh = some mesh ∧
        (loadMapData menv (unloadMapAll rm s mapId).state mapId).state.loadedMMaps.find mapId
          = some ⟨mesh, [], []⟩) := by
  have hstate : (unloadMapAll rm s mapId).state =
      ⟨s.loadedMMaps.erase mapId, s.loadedTiles - N⟩ := by
    simp only [unloadMapAll, hd]
    rw [unloadMapLoop_count mapId d.navMesh rm d.mmapLoadedTiles 0 s.loadedTiles
      (by intro j hj; rw [Nat.zero_add]; exact hrm j (hN ▸ hj)), hN]
  have hnone : (unloadMapAll rm s mapId).state.loadedMMaps.find mapId = none := by
    rw [hstate]; exact Table.find_erase_self _ _
  refine ⟨by simp [unloadMapAll, hd], by rw [hstate], hnone, ?_, ?_, ?_⟩
  · intro m hm
    rw [hstate]
    exact Table.find_erase_ne _ _ _ (Ne.symm hm)
  · unfold loadMapData
    rw [hnone]
    simp only
    repeat' split
    all_goals rfl
  · intro hret
    unfold loadMapData at hret ⊢
    rw [hnone] at hret ⊢
    simp only at hret ⊢
    split at hret
    · simp at hret
    · simp at hret
    · split at hret
      · simp at hret
      · rename_i mesh hmesh
        split at hret
        · simp at hret
        · rename_i hinit
          refine ⟨mesh, hmesh, ?_⟩
          simp [hinit, Table.insert_of_find_none _ _ _ hnone, Table.find]

/-- Witness of C4: map 1 holds one tile, its removal succeeds, and the map is
then loaded afresh. -/
theorem C4_unloadMapAll_count_witness :
    (unloadMapAll (fun _ => stOk) sOneTile 1).ret = some true ∧
    (unloadMapAll (fun _ => stOk) sOneTile 1).state.loadedTiles = sOneTile.loadedTiles - 1 ∧
    (unloadMapAll (fun _ => stOk) sOneTile 1).state.loadedMMaps.find 1 = none ∧
    (loadMapData menvGood (unloadMapAll (fun _ => stOk) sOneTile 1).state 1
      ).state.loadedMMaps.find 1 = some ⟨100, [], []⟩ :=
  have h := C4_unloadMapAll_count (fun _ => stOk) menvGood sOneTile 1 1
    dOneTile (by decide) (by decide) (fun _ _ => rfl)
  ⟨h.1, h.2.1, h.2.2.1, by decide⟩

/-- C5 (bad magic in `loadMap`): when `loadMapData` returns `true` for the map
(it is loaded or can be loaded), the tile has no entry, and the tile file opens
with a fully read header whose magic differs from `MMAP_MAGIC` (version and
size arbitrary), then `loadMap` returns `false` at the bad-header exit: after
the calls of `loadMapData` it opens the file, logs the bad-header line and
closes the file; `addTile` is never called, the state is the one `loadMapData`
left, and the tile set of every map and the counter are as before the call. -/
theorem C5_loadMap_bad_magic (k : Consts) (menv : MapDataEnv) (tenv : TileEnv)
    (s : MMapManager) (mapId : Nat) (x y : Int) (file : TileFile)
    (fileHeader : MmapTileHeader)
    (hmap : (loadMapData menv s mapId).ret = some true)
    (htile : (loadedTilesOf s mapId).find (packTileID x y) = none)
    (hfile : tenv.file = some file) (hheader : file.header = some fileHeader)
    (hmagic : fileHeader.mmapMagic ≠ k.MMAP_MAGIC) :
    (loadMap k menv tenv s mapId x y).ret = some false ∧
    (loadMap k menv tenv s mapId x y).events =
      (loadMapData menv s mapId).events ++
        [.fopen (.mmtile mapId x y), .log (.loadMapBadHeader mapId x y),
         .fclose (.mmtile mapId x y)] ∧
    (∀ mesh data size st tileRef,
      Event.addTile mesh data size st tileRef ∉ (loadMap k menv tenv s mapId x y).events) ∧
    (loadMap k menv tenv s mapId x y).state = (loadMapData menv s mapId).state ∧
    (∀ m, loadedTilesOf (loadMap k menv tenv s mapId x y).state m = loadedTilesOf s m) ∧
    (loadMap k menv tenv s mapId x y).state.loadedTiles = s.loadedTiles := by
  obtain ⟨mmap, _, he⟩ := loadMap_eq_loadMapTile k menv tenv s mapId x y hmap htile
  have hrun : loadMap k menv tenv s mapId x y =
      ⟨(loadMapData menv s mapId).events ++
        [.fopen (.mmtile mapId x y), .log (.loadMapBadHeader mapId x y),
         .fclose (.mmtile mapId x y)], (loadMapData menv s mapId).state, some false⟩ := by
    rw [he]
    simp [loadMapTile, hfile, hheader, hmagic]
  rw [hrun]
  refine ⟨rfl, rfl, ?_, rfl, ?_, ?_⟩
  · intro mesh data size st tileRef
    simp [(loadMapData_events menv s mapId).1]
  · intro m
    exact loadMapData_loadedTilesOf menv s mapId m
  · exact loadMapData_loadedTiles menv s mapId

/-- Witness of C5: on the empty manager map 1 can be loaded, and the tile file
starts with a wrong magic. -/
theorem C5_loadMap_bad_magic_witness :
    (loadMap kSample menvGood ⟨some ⟨some ⟨0, 4, 8⟩, 8, 5, 7⟩, some 200, stOk, 9⟩
      sEmpty 1 5 7).ret = some false ∧
    (loadMap kSample menvGood ⟨some ⟨some ⟨0, 4, 8⟩, 8, 5, 7⟩, some 200, stOk, 9⟩
      sEmpty 1 5 7).state.loadedTiles = 0 :=
  have h := C5_loadMap_bad_magic kSample menvGood
    ⟨some ⟨some ⟨0, 4, 8⟩, 8, 5, 7⟩, some 200, stOk, 9⟩ sEmpty 1 5 7
    ⟨some ⟨0, 4, 8⟩, 8, 5, 7⟩ ⟨0, 4, 8⟩ (by decide) (by decide) rfl rfl (by decide)
  ⟨h.1, h.2.2.2.2.2⟩

/-- C6 (version mismatch in `loadMap`): when `loadMapData` returns `true` for
the map, the tile has no entry, and the tile file opens with a fully read
header whose magic is `MMAP_MAGIC` and whose version differs from
`MMAP_VERSION`, then `loadMap` returns `false` at the version exit: after the
calls of `loadMapData` it opens the file, logs the version line with the
version found and the version expected, and closes the file; no buffer is
allocated (`dtAlloc` is not called), `addTile` is never called, the state is
the one `loadMapData` left, and the tile set of every map and the counter are
as before the call. -/
theorem C6_loadMap_version_mismatch (k : Consts) (menv : MapDataEnv) (tenv : TileEnv)
    (s : MMapManager) (mapId : Nat) (x y : Int) (file : TileFile)
    (fileHeader : MmapTileHeader)
    (hmap : (loadMapData menv s mapId).ret = some true)
    (htile : (loadedTilesOf s mapId).find (packTileID x y) = none)
    (hfile : tenv.file = some file) (hheader : file.header = some fileHeader)
    (hmagic : fileHeader.mmapMagic = k.MMAP_MAGIC)
    (hversion : fileHeader.mmapVersion ≠ k.MMAP_VERSION) :
    (loadMap k menv tenv s mapId x y).ret = some false ∧
    (loadMap k menv tenv s mapId x y).events =
      (loadMapData menv s mapId).events ++
        [.fopen (.mmtile mapId x y),
         .log (.loadMapVersion mapId x y fileHeader.mmapVersion k.MMAP_VERSION),
         .fclose (.mmtile mapId x y)] ∧
    (∀ size data, Event.dtAlloc size data ∉ (loadMap k menv tenv s mapId x y).events) ∧
    (∀ mesh data size st tileRef,
      Event.addTile mesh data size st tileRef ∉ (loadMap k menv tenv s mapId x y).events) ∧
    (loadMap k menv tenv s mapId x y).state = (loadMapData menv s mapId).state ∧
    (∀ m, loadedTilesOf (loadMap k menv tenv s mapId x y).state m = loadedTilesOf s m) ∧
    (loadMap k menv tenv s mapId x y).state.loadedTiles = s.loadedTiles := by
  obtain ⟨mmap, _, he⟩ := loadMap_eq_loadMapTile k menv tenv s mapId x y hmap htile
  have hrun : loadMap k menv tenv s mapId x y =
      ⟨(loadMapData menv s mapId).events ++
        [.fopen (.mmtile mapId x y),
         .log (.loadMapVersion mapId x y fileHeader.mmapVersion k.MMAP_VERSION),
         .fclose (.mmtile mapId x y)], (loadMapData menv s mapId).state, some false⟩ := by
    rw [he]
    simp [loadMapTile, hfile, hheader, hmagic, hversion]
  rw [hrun]
  refine ⟨rfl, rfl, ?_, ?_, rfl, ?_, ?_⟩
  · intro size data
    simp [(loadMapData_events menv s mapId).2]
  · intro mesh data size st tileRef
    simp [(loadMapData_events menv s mapId).1]
  · intro m
    exact loadMapData_loadedTilesOf menv s mapId m
  · exact loadMapData_loadedTiles menv s mapId

/-- Witness of C6: map 1 is loaded with one tile; the file of tile (6, 7) was
built with version 3 where version 4 is expected. -/
theorem C6_loadMap_version_mismatch_witness :
    (loadMap kSample menvNoFile ⟨some ⟨some ⟨0x4d4d4150, 3, 8⟩, 8, 6, 7⟩, some 200, stOk, 9⟩
      sOneTile 1 6 7).events =
      [.fopen (.mmtile 1 6 7), .log (.loadMapVersion 1 6 7 3 4), .fclose (.mmtile 1 6 7)] ∧
    (loadMap kSample menvNoFile ⟨some ⟨some ⟨0x4d4d4150, 3, 8⟩, 8, 6, 7⟩, some 200, stOk, 9⟩
      sOneTile 1 6 7).state.loadedTiles = 1 :=
  have h := C6_loadMap_version_mismatch kSample menvNoFile
    ⟨some ⟨some ⟨0x4d4d4150, 3, 8⟩, 8, 6, 7⟩, some 200, stOk, 9⟩ sOneTile 1 6 7
    ⟨some ⟨0x4d4d4150, 3, 8⟩, 8, 6, 7⟩ ⟨0x4d4d4150, 3, 8⟩
    (by decide) (by decide) rfl rfl (by decide) (by decide)
  ⟨h.2.1, h.2.2.2.2.2.2⟩

/-- C7 (idempotence of `loadMapData`): when the map already has a record,
`loadMapData` returns `true` with no external call (no file opened, no mesh
allocated) and leaves the whole state unchanged; hence whenever a first call
returns `true`, a second call in a row returns `true` as well, makes no
external call, and ends in the state the first call left. -/
theorem C7_loadMapData_idempotent (env env2 : MapDataEnv) (s : MMapManager) (mapId : Nat) :
    ((s.loadedMMaps.find mapId).isSome = true →
      loadMapData env s mapId = ⟨[], s, some true⟩) ∧
    ((loadMapData env s mapId).ret = some true →
      loadMapData env2 (loadMapData env s mapId).state mapId =
        ⟨[], (loadMapData env s mapId).state, some true⟩) := by
  constructor
  · intro h
    obtain ⟨d, hd⟩ := Option.isSome_iff_exists.mp h
    exact loadMapData_of_find_some env s mapId d hd
  · intro h
    obtain ⟨d, hd⟩ := loadMapData_find_of_ret_true env s mapId h
    exact loadMapData_of_find_some env2 _ mapId d hd

/-- Witness of C7: map 1 is loaded in `sOneTile`, and on the empty manager a
first call loads it; in both cases a call with every outside answer negative
succeeds without touching anything. -/
theorem C7_loadMapData_idempotent_witness :
    ((sOneTile.loadedMMaps.find 1).isSome = true ∧
      loadMapData menvNoFile sOneTile 1 = ⟨[], sOneTile, some true⟩) ∧
    ((loadMapData menvGood sEmpty 1).ret = some true ∧
      loadMapData menvNoFile (loadMapData menvGood sEmpty 1).state 1 =
        ⟨[], (loadMapData menvGood sEmpty 1).state, some true⟩) :=
  ⟨⟨by decide, (C7_loadMapData_idempotent menvNoFile menvNoFile sOneTile 1).1 (by decide)⟩,
   ⟨by decide, (C7_loadMapData_idempotent menvGood menvNoFile sEmpty 1).2 (by decide)⟩⟩

/-- C9 (fatal policy of `unloadMap(mapId, x, y)`): when the map is loaded and
has an entry for the packed coordinate, and `removeTile` fails for the stored
reference, the call ends at the failed `ASSERT` after calling `removeTile` and
logging; it returns neither `true` nor `false`, and at that point the state is
unchanged: the entry is still there and the counter has not been decremented. -/
theorem C9_unloadMap_fatal (rm : dtStatus) (s : MMapManager) (mapId : Nat) (x y : Int)
    (d : MMapData) (tileRef : dtTileRef)
    (hd : s.loadedMMaps.find mapId = some d)
    (ht : d.mmapLoadedTiles.find (packTileID x y) = some tileRef)
    (hrm : dtStatusFailed rm = true) :
    (unloadMap rm s mapId x y).ret = none ∧
    (unloadMap rm s mapId x y).events =
      [.removeTile d.navMesh tileRef rm, .log (.unloadMapCouldNotUnload mapId x y),
       .assertFailed] ∧
    (unloadMap rm s mapId x y).state = s ∧
    (loadedTilesOf (unloadMap rm s mapId x y).state mapId).find (packTileID x y) =
      some tileRef ∧
    (unloadMap rm s mapId x y).state.loadedTiles = s.loadedTiles := by
  simp [unloadMap, hd, ht, hrm, loadedTilesOf]

/-- Witness of C9: the removal of the one tile of map 1 fails. -/
theorem C9_unloadMap_fatal_witness :
    (unloadMap stFail sOneTile 1 5 7).ret = none ∧
    (unloadMap stFail sOneTile 1 5 7).state = sOneTile :=
  have h := C9_unloadMap_fatal stFail sOneTile 1 5 7 dOneTile 9
    (by decide) (by decide) (by decide)
  ⟨h.1, h.2.2.1⟩

/-- C10, as stated, fails: map 1 holds one tile and its `removeTile` fails, yet
`unloadMap(mapId)` does not end at a failed `ASSERT`: it logs the failure,
deletes the record, erases the map and returns `true`. -/
theorem C10_unloadMapAll_fatal_counterexample :
    sOneTile.loadedMMaps.find 1 = some dOneTile ∧
    dOneTile.mmapLoadedTiles = [(packTileID 5 7, 9)] ∧
    dtStatusFailed stFail = true ∧
    (unloadMapAll (fun _ => stFail) sOneTile 1).ret ≠ none ∧
    unloadMapAll (fun _ => stFail) sOneTile 1 =
      ⟨[.removeTile 100 9 stFail, .log (.unloadMapCouldNotUnload 1 5 7),
        .deleteMMapData dOneTile, .log (.unloadMapUnloaded 1)],
       ⟨[], 1⟩, some true⟩ := by
  decide

/-- C10 amended (`unloadMap(mapId)` has no fatal outcome): when the map is
loaded, the call passes the reference of every tile entry to `removeTile`, once
each and in the order of the entries, whether or not earlier removals failed;
no `ASSERT` fails; the record is deleted, the map has no record afterwards and
the call returns `true`. -/
theorem C10_unloadMapAll_never_fatal (rm : Nat → dtStatus) (s : MMapManager) (mapId : Nat)
    (d : MMapData) (hd : s.loadedMMaps.find mapId = some d) :
    (unloadMapAll rm s mapId).ret = some true ∧
    removeTileCalls (unloadMapAll rm s mapId).events = d.mmapLoadedTiles.map Prod.snd ∧
    Event.assertFailed ∉ (unloadMapAll rm s mapId).events ∧
    Event.deleteMMapData d ∈ (unloadMapAll rm s mapId).events ∧
    (unloadMapAll rm s mapId).state.loadedMMaps.find mapId = none := by
  have hloop := unloadMapLoop_calls mapId d.navMesh rm d.mmapLoadedTiles 0 s.loadedTiles
  have hcalls := hloop.1
  simp only [removeTileCalls] at hcalls
  refine ⟨by simp [unloadMapAll, hd], ?_, ?_, by simp [unloadMapAll, hd], ?_⟩
  · simp [unloadMapAll, hd, removeTileCalls, List.filterMap_append, hcalls]
  · simp [unloadMapAll, hd, hloop.2]
  · simp [unloadMapAll, hd, Table.find_erase_self]

/-- Witness of C10 amended: the removal of the one tile of map 1 fails and the
map is unloaded all the same. -/
theorem C10_unloadMapAll_never_fatal_witness :
    (unloadMapAll (fun _ => stFail) sOneTile 1).ret = some true ∧
    removeTileCalls (unloadMapAll (fun _ => stFail) sOneTile 1).events = [9] ∧
    (unloadMapAll (fun _ => stFail) sOneTile 1).state.loadedMMaps.find 1 = none :=
  have h := C10_unloadMapAll_never_fatal (fun _ => stFail) sOneTile 1 dOneTile (by decide)
  ⟨h.1, h.2.1, h.2.2.2.2⟩

/-- C11 (atomicity of `loadMap` around `addTile`): let the map be loaded without
an entry for the tile, and let the tile file have a header with the expected
magic and version, an allocated buffer and a fully read payload.  When
`addTile` does not report success, `loadMap` logs that the tile could not be
loaded, releases the buffer with `dtFree` and returns `false`, and the whole
state (every tile set, the counter) is unchanged.  When `addTile` reports
success, `loadMap` returns `true`, the tile set of the map gains exactly the
entry from the packed coordinate to the returned reference, the tile sets of
all other maps are unchanged and the counter grows by one. -/
theorem C11_loadMap_addTile_atomic (k : Consts) (menv : MapDataEnv) (tenv : TileEnv)
    (s : MMapManager) (mapId : Nat) (x y : Int) (d : MMapData) (file : TileFile)
    (fileHeader : MmapTileHeader) (data : Ptr)
    (hd : s.loadedMMaps.find mapId = some d)
    (ht : d.mmapLoadedTiles.find (packTileID x y) = none)
    (hfile : tenv.file = some file) (hheader : file.header = some fileHeader)
    (hmagic : fileHeader.mmapMagic = k.MMAP_MAGIC)
    (hversion : fileHeader.mmapVersion = k.MMAP_VERSION)
    (hdata : tenv.data = some data)
    (hread : file.freadPayload fileHeader.size ≠ 0) :
    (dtStatusSucceed tenv.addTile = false →
      loadMap k menv tenv s mapId x y =
        ⟨[.fopen (.mmtile mapId x y), .dtAlloc fileHeader.size (some data),
          .fclose (.mmtile mapId x y),
          .addTile d.navMesh data fileHeader.size tenv.addTile tenv.tileRef,
          .log (.loadMapCouldNotLoad mapId x y), .dtFree data], s, some false⟩) ∧
    (dtStatusSucceed tenv.addTile = true →
      (loadMap k menv tenv s mapId x y).ret = some true ∧
      loadedTilesOf (loadMap k menv tenv s mapId x y).state mapId =
        (packTileID x y, tenv.tileRef) :: d.mmapLoadedTiles ∧
      (∀ m, m ≠ mapId →
        loadedTilesOf (loadMap k menv tenv s mapId x y).state m = loadedTilesOf s m) ∧
      (loadMap k menv tenv s mapId x y).state.loadedTiles = s.loadedTiles + 1) := by
  rw [loadMap_of_tile_absent k menv tenv s mapId x y d hd ht]
  constructor
  · intro hadd
    simp [loadMapTile, hfile, hheader, hmagic, hversion, hdata, hread, hadd]
  · intro hadd
    have hrun : (loadMapTile k tenv [] s d mapId x y).state =
        ⟨s.loadedMMaps.assign mapId
           { d with mmapLoadedTiles := (packTileID x y, tenv.tileRef) :: d.mmapLoadedTiles },
         s.loadedTiles + 1⟩ := by
      simp [loadMapTile, hfile, hheader, hmagic, hversion, hdata, hread, hadd,
        Table.insert_of_find_none _ _ _ ht]
    refine ⟨?_, ?_, ?_, ?_⟩
    · simp [loadMapTile, hfile, hheader, hmagic, hversion, hdata, hread, hadd]
    · rw [hrun]
      simp [loadedTilesOf, Table.find_assign_self _ _ _ _ hd]
    · intro m hm
      rw [hrun]
      simp [loadedTilesOf, Table.find_assign_ne _ _ _ _ (Ne.symm hm)]
    · rw [hrun]

/-- Witness of C11: map 1 is loaded without tiles and the file of tile (5, 7)
is well formed; the mesh refuses the tile in one call and takes it in the
other. -/
theorem C11_loadMap_addTile_atomic_witness :
    loadMap kSample menvNoFile ⟨tenvGood.file, some 200, stFail, 9⟩ sNoTile 1 5 7 =
      ⟨[.fopen (.mmtile 1 5 7), .dtAlloc 8 (some 200), .fclose (.mmtile 1 5 7),
        .addTile 100 200 8 stFail 9, .log (.loadMapCouldNotLoad 1 5 7), .dtFree 200],
       sNoTile, some false⟩ ∧
    loadedTilesOf (loadMap kSample menvNoFile tenvGood sNoTile 1 5 7).state 1 =
      [(packTileID 5 7, 9)] ∧
    (loadMap kSample menvNoFile tenvGood sNoTile 1 5 7).state.loadedTiles = 1 :=
  ⟨(C11_loadMap_addTile_atomic kSample menvNoFile ⟨tenvGood.file, some 200, stFail, 9⟩
      sNoTile 1 5 7 ⟨100, [], []⟩ ⟨some ⟨0x4d4d4150, 4, 8⟩, 8, 5, 7⟩ ⟨0x4d4d4150, 4, 8⟩ 200
      (by decide) (by decide) rfl rfl (by decide) (by decide) rfl (by decide)).1 rfl,
   ((C11_loadMap_addTile_atomic kSample menvNoFile tenvGood
      sNoTile 1 5 7 ⟨100, [], []⟩ ⟨some ⟨0x4d4d4150, 4, 8⟩, 8, 5, 7⟩ ⟨0x4d4d4150, 4, 8⟩ 200
      (by decide) (by decide) rfl rfl (by decide) (by decide) rfl (by decide)).2 rfl).2.1,
   ((C11_loadMap_addTile_atomic kSample menvNoFile tenvGood
      sNoTile 1 5 7 ⟨100, [], []⟩ ⟨some ⟨0x4d4d4150, 4, 8⟩, 8, 5, 7⟩ ⟨0x4d4d4150, 4, 8⟩ 200
      (by decide) (by decide) rfl rfl (by decide) (by decide) rfl (by decide)).2 rfl).2.2.2⟩

/-- C12 (`GetNavMeshQuery` stores no broken entry): when the map has no record
the call returns `NULL` with no external call and the state unchanged.  When
the map is loaded without a query for the instance and `dtAllocNavMeshQuery`
returns an object: if `init` fails the object is released with
`dtFreeNavMeshQuery`, `NULL` is returned and the state is unchanged, so the
instance still has no query; if `init` does not fail the object is returned and
stored under the instance, and this is the only change: the queries of other
instances, the mesh and the tile set of the map, all other maps and the counter
are as before. -/
theorem C12_GetNavMeshQuery_no_broken_entry (env : QueryEnv) (s : MMapManager)
    (mapId instanceId : Nat) :
    (s.loadedMMaps.find mapId = none →
      GetNavMeshQuery env s mapId instanceId = ⟨[], s, some none⟩) ∧
    (∀ d query, s.loadedMMaps.find mapId = some d →
      d.navMeshQueries.find instanceId = none → env.query = some query →
      (dtStatusFailed env.init = true →
        GetNavMeshQuery env s mapId instanceId =
          ⟨[.dtAllocNavMeshQuery (some query), .queryInit query d.navMesh 1024 env.init,
            .dtFreeNavMeshQuery query,
            .log (.getNavMeshQueryInitFailed mapId instanceId)], s, some none⟩) ∧
      (dtStatusFailed env.init = false →
        (GetNavMeshQuery env s mapId instanceId).ret = some (some query) ∧
        (GetNavMeshQuery env s mapId instanceId).state.loadedMMaps.find mapId =
          some { d with navMeshQueries := (instanceId, query) :: d.navMeshQueries } ∧
        (∀ i, i ≠ instanceId →
          Table.find ((instanceId, query) :: d.navMeshQueries) i =
            d.navMeshQueries.find i) ∧
        (∀ m, m ≠ mapId →
          (GetNavMeshQuery env s mapId instanceId).state.loadedMMaps.find m =
            s.loadedMMaps.find m) ∧
        (GetNavMeshQuery env s mapId instanceId).state.loadedTiles = s.loadedTiles)) := by
  constructor
  · intro h
    simp [GetNavMeshQuery, h]
  · intro d query hd hq halloc
    constructor
    · intro hinit
      simp [GetNavMeshQuery, hd, hq, halloc, hinit]
    · intro hinit
      rw [GetNavMeshQuery_of_find_none env s mapId instanceId d query hd hq halloc hinit]
      refine ⟨rfl, Table.find_assign_self _ _ _ _ hd, ?_, ?_, rfl⟩
      · intro i hi
        simp [Table.find, Ne.symm hi]
      · intro m hm
        exact Table.find_assign_ne _ _ _ _ (Ne.symm hm)

/-- Witness of C12: map 2 is not loaded; on map 1 the query of instance 2 is
missing, and its `init` fails in one call and succeeds in the other. -/
theorem C12_GetNavMeshQuery_no_broken_entry_witness :
    GetNavMeshQuery ⟨some 301, stOk⟩ sOneTile 2 1 = ⟨[], sOneTile, some none⟩ ∧
    GetNavMeshQuery ⟨some 301, stFail⟩ sOneTile 1 2 =
      ⟨[.dtAllocNavMeshQuery (some 301), .queryInit 301 100 1024 stFail,
        .dtFreeNavMeshQuery 301, .log (.getNavMeshQueryInitFailed 1 2)],
       sOneTile, some none⟩ ∧
    (GetNavMeshQuery ⟨some 301, stOk⟩ sOneTile 1 2).ret = some (some 301) :=
  ⟨(C12_GetNavMeshQuery_no_broken_entry ⟨some 301, stOk⟩ sOneTile 2 1).1 (by decide),
   ((C12_GetNavMeshQuery_no_broken_entry ⟨some 301, stFail⟩ sOneTile 1 2).2 dOneTile 301
      (by decide) (by decide) rfl).1 rfl,
   (((C12_GetNavMeshQuery_no_broken_entry ⟨some 301, stOk⟩ sOneTile 1 2).2 dOneTile 301
      (by decide) (by decide) rfl).2 rfl).1⟩

/-- C13 (`unloadMapInstance`): when the map has no record the call returns
`false` and the state is unchanged; when the map is loaded without a query for
the instance the state is unchanged as well; otherwise the call releases the
stored object with `dtFreeNavMeshQuery`, returns `true` and removes the entry
of the instance and nothing else: the queries of other instances, the mesh and
the tile set of the map, all other maps and the counter are as before.  A
following `GetNavMeshQuery` of the same instance then allocates: it calls
`dtAllocNavMeshQuery` and returns the object obtained from it. -/
theorem C13_unloadMapInstance (env : QueryEnv) (s : MMapManager) (mapId instanceId : Nat) :
    (s.loadedMMaps.find mapId = none →
      (unloadMapInstance s mapId instanceId).ret = some false ∧
      (unloadMapInstance s mapId instanceId).state = s) ∧
    (∀ d, s.loadedMMaps.find mapId = some d →
      d.navMeshQueries.find instanceId = none →
      (unloadMapInstance s mapId instanceId).state = s) ∧
    (∀ d query, s.loadedMMaps.find mapId = some d →
      d.navMeshQueries.find instanceId = some query →
      (unloadMapInstance s mapId instanceId).ret = some true ∧
      (unloadMapInstance s mapId instanceId).events =
        [.dtFreeNavMeshQuery query, .log (.unloadMapInstanceUnloaded mapId instanceId)] ∧
      (unloadMapInstance s mapId instanceId).state.loadedMMaps.find mapId =
        some { d with navMeshQueries := d.navMeshQueries.erase instanceId } ∧
      (d.navMeshQueries.erase instanceId).find instanceId = none ∧
      (∀ i, i ≠ instanceId →
        (d.navMeshQueries.erase instanceId).find i = d.navMeshQueries.find i) ∧
      (∀ m, m ≠ mapId →
        (unloadMapInstance s mapId instanceId).state.loadedMMaps.find m =
          s.loadedMMaps.find m) ∧
      (unloadMapInstance s mapId instanceId).state.loadedTiles = s.loadedTiles ∧
      (∀ fresh, env.query = some fresh → dtStatusFailed env.init = false →
        (GetNavMeshQuery env (unloadMapInstance s mapId instanceId).state mapId instanceId
          ).events.head? = some (.dtAllocNavMeshQuery (some fresh)) ∧
        (GetNavMeshQuery env (unloadMapInstance s mapId instanceId).state mapId instanceId
          ).ret = some (some fresh))) := by
  refine ⟨?_, ?_, ?_⟩
  · intro h
    simp [unloadMapInstance, h]
  · intro d hd hq
    simp [unloadMapInstance, hd, hq]
  · intro d query hd hq
    have hrun : unloadMapInstance s mapId instanceId =
        ⟨[.dtFreeNavMeshQuery query, .log (.unloadMapInstanceUnloaded mapId instanceId)],
         ⟨s.loadedMMaps.assign mapId
            { d with navMeshQueries := d.navMeshQueries.erase instanceId },
          s.loadedTiles⟩, some true⟩ := by
      simp [unloadMapInstance, hd, hq]
    rw [hrun]
    have hfind := Table.find_assign_self s.loadedMMaps mapId
      { d with navMeshQueries := d.navMeshQueries.erase instanceId } d hd
    refine ⟨rfl, rfl, hfind, Table.find_erase_self _ _, ?_, ?_, rfl, ?_⟩
    · intro i hi
      exact Table.find_erase_ne _ _ _ (Ne.symm hi)
    · intro m hm
      exact Table.find_assign_ne _ _ _ _ (Ne.symm hm)
    · intro fresh halloc hinit
      rw [GetNavMeshQuery_of_find_none env _ mapId instanceId _ fresh hfind
        (Table.find_erase_self _ _) halloc hinit]
      exact ⟨rfl, rfl⟩

/-- Witness of C13: map 2 is not loaded, instance 2 has no query on map 1, and
the query 300 of instance 1 on map 1 is released and then allocated anew. -/
theorem C13_unloadMapInstance_witness :
    (unloadMapInstance sOneTile 2 1).state = sOneTile ∧
    (unloadMapInstance sOneTile 1 2).state = sOneTile ∧
    (unloadMapInstance sOneTile 1 1).events =
      [.dtFreeNavMeshQuery 300, .log (.unloadMapInstanceUnloaded 1 1)] ∧
    (GetNavMeshQuery ⟨some 301, stOk⟩ (unloadMapInstance sOneTile 1 1).state 1 1).ret =
      some (some 301) :=
  ⟨((C13_unloadMapInstance ⟨some 301, stOk⟩ sOneTile 2 1).1 (by decide)).2,
   (C13_unloadMapInstance ⟨some 301, stOk⟩ sOneTile 1 2).2.1 dOneTile (by decide) (by decide),
   ((C13_unloadMapInstance ⟨some 301, stOk⟩ sOneTile 1 1).2.2 dOneTile 300
      (by decide) (by decide)).2.1,
   (((C13_unloadMapInstance ⟨some 301, stOk⟩ sOneTile 1 1).2.2 dOneTile 300
      (by decide) (by decide)).2.2.2.2.2.2.2 301 rfl rfl).2⟩

/-- C14 (layout of `packTileID`): for `0 ≤ x < 2^16` and `0 ≤ y < 2^16` the
packed key is `x * 2^16 + y`, an unsigned 32-bit value with `x` in the high and
`y` in the low 16 bits; the unpacking of `unloadMap(mapId)`, `key >> 16` and
`key & 0xFFFF`, gives back `x` and `y`; and two coordinates of that range with
the same key are equal. -/
theorem C14_packTileID_layout (x y : Int)
    (hx0 : 0 ≤ x) (hx : x < 65536) (hy0 : 0 ≤ y) (hy : y < 65536) :
    (packTileID x y : Int) = x * 65536 + y ∧
    packTileID x y < 4294967296 ∧
    ((packTileID x y >>> 16 : Nat) : Int) = x ∧
    ((packTileID x y &&& 0x0000FFFF : Nat) : Int) = y ∧
    (∀ x' y' : Int, 0 ≤ x' → x' < 65536 → 0 ≤ y' → y' < 65536 →
      packTileID x y = packTileID x' y' → x = x' ∧ y = y') := by
  obtain ⟨a, rfl⟩ := Int.eq_ofNat_of_zero_le hx0
  obtain ⟨b, rfl⟩ := Int.eq_ofNat_of_zero_le hy0
  have ha : a < 65536 := by omega
  have hb : b < 65536 := by omega
  have hp := packTileID_natCast a b ha hb
  have hu := unpack_of_range a b hb
  refine ⟨?_, ?_, ?_, ?_, ?_⟩
  · rw [hp]; push_cast; ring
  · rw [hp]; omega
  · rw [hp, hu.1]
  · rw [hp, hu.2]
  · intro x' y' hx0' hx' hy0' hy' heq
    obtain ⟨a', rfl⟩ := Int.eq_ofNat_of_zero_le hx0'
    obtain ⟨b', rfl⟩ := Int.eq_ofNat_of_zero_le hy0'
    rw [hp, packTileID_natCast a' b' (by omega) (by omega)] at heq
    constructor <;> omega

/-- Witness of C14: the tile (5, 7). -/
theorem C14_packTileID_layout_witness :
    (packTileID 5 7 : Int) = 5 * 65536 + 7 ∧
    ((packTileID 5 7 >>> 16 : Nat) : Int) = 5 ∧
    ((packTileID 5 7 &&& 0x0000FFFF : Nat) : Int) = 7 :=
  have h := C14_packTileID_layout 5 7 (by decide) (by decide) (by decide) (by decide)
  ⟨h.1, h.2.2.1, h.2.2.2.1⟩

/-- C15 (`loadMapData` on a map without a record): the call returns `true` if
and only if the `.mmap` file opens, one full `dtNavMeshParams` is read from it
and the mesh library accepts the parameters (a mesh is allocated and its `init`
does not fail).  When the file does not open, when the record is not read in
full, and when `init` fails, the call returns `false` and the state is
unchanged; in fact the state is unchanged whenever the call does not return
`true`.  When it returns `true`, the state gains exactly one record, for this
map, holding the new mesh with no tile and no query; the counter and the
records of all other maps are unchanged. -/
theorem C15_loadMapData_fresh (env : MapDataEnv) (s : MMapManager) (mapId : Nat)
    (hnone : s.loadedMMaps.find mapId = none) :
    ((loadMapData env s mapId).ret = some true ↔
      ∃ params mesh, env.file = some (some params) ∧ env.mesh = some mesh ∧
        dtStatusFailed env.init = false) ∧
    (env.file = none →
      loadMapData env s mapId =
        ⟨[.fopen (.mmap mapId), .log (.loadMapDataCouldNotOpen mapId)], s, some false⟩) ∧
    (env.file = some none →
      loadMapData env s mapId =
        ⟨[.fopen (.mmap mapId), .fclose (.mmap mapId),
          .log (.loadMapDataCouldNotRead mapId)], s, some false⟩) ∧
    (∀ params mesh, env.file = some (some params) → env.mesh = some mesh →
      dtStatusFailed env.init = true →
      loadMapData env s mapId =
        ⟨[.fopen (.mmap mapId), .fclose (.mmap mapId), .dtAllocNavMesh (some mesh),
          .navMeshInit mesh params env.init, .dtFreeNavMesh mesh,
          .log (.loadMapDataInitFailed mapId)], s, some false⟩) ∧
    ((loadMapData env s mapId).ret ≠ some true → (loadMapData env s mapId).state = s) ∧
    ((loadMapData env s mapId).ret = some true →
      ∃ mesh, env.mesh = some mesh ∧
        (loadMapData env s mapId).state =
          ⟨(mapId, ⟨mesh, [], []⟩) :: s.loadedMMaps, s.loadedTiles⟩ ∧
        (∀ m, m ≠ mapId →
          (loadMapData env s mapId).state.loadedMMaps.find m = s.loadedMMaps.find m)) := by
  rcases hfile : env.file with _ | _ | params
  · simp [loadMapData, hnone, hfile]
  · simp [loadMapData, hnone, hfile]
  · rcases hmesh : env.mesh with _ | mesh
    · simp [loadMapData, hnone, hfile, hmesh]
    · cases hinit : dtStatusFailed env.init
      · simp [loadMapData, hnone, hfile, hmesh, hinit, Table.insert_of_find_none _ _ _ hnone]
        intro m hm
        simp [Table.find, Ne.symm hm]
      · simp [loadMapData, hnone, hfile, hmesh, hinit]

/-- Witness of C15: on the empty manager, map 1 is loaded from a good file and
is not loaded when the file is missing. -/
theorem C15_loadMapData_fresh_witness :
    ((loadMapData menvGood sEmpty 1).ret = some true ↔
      ∃ params mesh, menvGood.file = some (some params) ∧ menvGood.mesh = some mesh ∧
        dtStatusFailed menvGood.init = false) ∧
    loadMapData menvNoFile sEmpty 1 =
      ⟨[.fopen (.mmap 1), .log (.loadMapDataCouldNotOpen 1)], sEmpty, some false⟩ :=
  ⟨(C15_loadMapData_fresh menvGood sEmpty 1 (by decide)).1,
   (C15_loadMapData_fresh menvNoFile sEmpty 1 (by decide)).2.1 rfl⟩

/-- C16 fails on the code after a failed removal in `unloadMap(mapId)`.  From
the empty manager, tile (5, 7) of map 1 is loaded (counter 1, one entry); then
map 1 is unloaded as a whole while `removeTile` fails.  No `ASSERT` fails, the
record with its entry is gone, and the counter is still 1 although no tile
entry is left in any map. -/
theorem C16_counter_after_failed_bulk_removal :
    runOps kSample [.loadMap menvGood tenvGood 1 5 7] sEmpty = some sLoaded ∧
    sLoaded.loadedTiles = 1 ∧ totalTiles sLoaded = 1 ∧
    unloadMapAll (fun _ => stFail) sLoaded 1 =
      ⟨[.removeTile 100 9 stFail, .log (.unloadMapCouldNotUnload 1 5 7),
        .deleteMMapData dLoaded, .log (.unloadMapUnloaded 1)], ⟨[], 1⟩, some true⟩ ∧
    runOps kSample [.loadMap menvGood tenvGood 1 5 7, .unloadMapAll (fun _ => stFail) 1]
      sEmpty = some ⟨[], 1⟩ ∧
    totalTiles ⟨[], 1⟩ = 0 ∧
    (⟨[], 1⟩ : MMapManager).loadedTiles ≠ (totalTiles ⟨[], 1⟩ : Int) := by
  decide

/-- C17, as stated, fails in its last part: an entry can be removed by an
unload whose `removeTile` failed.  In the state reached from the empty manager
by loading tile (5, 7) of map 1, `unloadMap(mapId)` with a failing `removeTile`
returns `true`, and the entry of the tile, present before, is gone. -/
theorem C17_entry_removed_by_failed_removal :
    runOps kSample [.loadMap menvGood tenvGood 1 5 7] sEmpty = some sLoaded ∧
    (packTileID 5 7, 9) ∈ loadedTilesOf sLoaded 1 ∧
    dtStatusFailed stFail = true ∧
    unloadMapAll (fun _ => stFail) sLoaded 1 =
      ⟨[.removeTile 100 9 stFail, .log (.unloadMapCouldNotUnload 1 5 7),
        .deleteMMapData dLoaded, .log (.unloadMapUnloaded 1)], ⟨[], 1⟩, some true⟩ ∧
    (packTileID 5 7, 9) ∉ loadedTilesOf (unloadMapAll (fun _ => stFail) sLoaded 1).state 1 := by
  decide

/-- C17 amended (tile sets and meshes agree): take a mesh as the set of tile
references in it, where an `addTile` that reports success adds the returned
reference, which is not yet in the mesh, and a `removeTile` that does not fail
deletes its reference.  In every state reached from the empty manager by a
sequence of calls none of which ends at a failed `ASSERT`, for every loaded map
the references stored in its tile set are exactly the references in its mesh.
From such a state, a call adds an entry only as a `loadMap` whose `addTile`
reported success, and drops an entry only as an `unloadMap(mapId, x, y)` whose
`removeTile` did not fail or as an `unloadMap(mapId)`, which drops the record
and the mesh of the map together whatever its removals answered. -/
theorem C17_registry_mesh_consistent (k : Consts) (ops : List Op) (s : MMapManager)
    (g : Nat → List dtTileRef)
    (hrun : runOpsMesh k ops ⟨[], 0⟩ (fun _ => []) = some (s, g))
    (hfresh : freshTileRefs k ops ⟨[], 0⟩ (fun _ => [])) :
    (∀ mapId d, s.loadedMMaps.find mapId = some d →
      ∀ tileRef, tileRef ∈ d.mmapLoadedTiles.map Prod.snd ↔ tileRef ∈ g mapId) ∧
    (∀ mapId, s.loadedMMaps.find mapId = none → g mapId = []) ∧
    (∀ (op : Op) (m : Nat) (e : Nat × dtTileRef),
      e ∈ loadedTilesOf (op.run k s).state m → e ∉ loadedTilesOf s m →
      ∃ menv tenv x y, op = .loadMap menv tenv m x y ∧
        dtStatusSucceed tenv.addTile = true ∧ e = (packTileID x y, tenv.tileRef)) ∧
    (∀ (op : Op) (m : Nat) (e : Nat × dtTileRef),
      e ∈ loadedTilesOf s m → e ∉ loadedTilesOf (op.run k s).state m →
      (∃ rm x y, op = .unloadMap rm m x y ∧ dtStatusFailed rm = false ∧
        e.1 = packTileID x y) ∨
      (∃ rm, op = .unloadMapAll rm m)) := by
  have hempty : meshConsistent ⟨[], 0⟩ (fun _ => []) :=
    ⟨fun _ _ => rfl, fun m d hm => by simp [Table.find] at hm⟩
  have hinv := meshConsistent_runOpsMesh k ops _ _ s g hempty hfresh hrun
  refine ⟨?_, hinv.1, fun op => run_added_entry k op s,
    fun op => run_removed_entry k op s⟩
  intro mapId d hd tileRef
  rw [(hinv.2 mapId d hd).1]

/-- Witness of C17 amended: tile (5, 7) of map 1 is loaded on the empty
manager; the tile set and the mesh of map 1 then both hold the reference 9. -/
theorem C17_registry_mesh_consistent_witness :
    runOpsMesh kSample [.loadMap menvGood tenvGood 1 5 7] ⟨[], 0⟩ (fun _ => []) =
      some (sLoaded, meshStep kSample (.loadMap menvGood tenvGood 1 5 7) sEmpty (fun _ => [])) ∧
    (9 ∈ dLoaded.mmapLoadedTiles.map Prod.snd ↔
      9 ∈ meshStep kSample (.loadMap menvGood tenvGood 1 5 7) sEmpty (fun _ => []) 1) ∧
    (10 ∈ dLoaded.mmapLoadedTiles.map Prod.snd ↔
      10 ∈ meshStep kSample (.loadMap menvGood tenvGood 1 5 7) sEmpty (fun _ => []) 1) :=
  ⟨rfl,
   (C17_registry_mesh_consistent kSample [.loadMap menvGood tenvGood 1 5 7] sLoaded
      (meshStep kSample (.loadMap menvGood tenvGood 1 5 7) sEmpty (fun _ => []))
      rfl ⟨fun _ => by decide, trivial⟩).1 1 dLoaded (by decide) 9,
   (C17_registry_mesh_consistent kSample [.loadMap menvGood tenvGood 1 5 7] sLoaded
      (meshStep kSample (.loadMap menvGood tenvGood 1 5 7) sEmpty (fun _ => []))
      rfl ⟨fun _ => by decide, trivial⟩).1 1 dLoaded (by decide) 10⟩

/-- C18 (aliasing of packed keys outside the 16-bit range): the distinct
coordinates (0, 65536) and (1, 0) have the same key, and every coordinate with
`y = -1` has the key `0xFFFFFFFF`.  Hence, after a `loadMap` of tile (1, 0)
that returned `true`, a `loadMap` of tile (0, 65536) of the same map returns
`false` at the already-loaded check with no external call (its file is not
opened), and an `unloadMap` of tile (0, 65536) whose `removeTile` does not fail
returns `true`, passes to `removeTile` the reference stored for tile (1, 0) and
leaves the map without an entry for tile (1, 0). -/
theorem C18_packTileID_aliasing (k : Consts) (menv menv2 : MapDataEnv)
    (tenv tenv2 : TileEnv) (rm : dtStatus) (s : MMapManager) (mapId : Nat) :
    packTileID 0 65536 = packTileID 1 0 ∧
    (∀ x : Int, packTileID x (-1) = 0xFFFFFFFF) ∧
    ((loadMap k menv tenv s mapId 1 0).ret = some true →
      loadMap k menv2 tenv2 (loadMap k menv tenv s mapId 1 0).state mapId 0 65536 =
        ⟨[], (loadMap k menv tenv s mapId 1 0).state, some false⟩ ∧
      (dtStatusFailed rm = false →
        (unloadMap rm (loadMap k menv tenv s mapId 1 0).state mapId 0 65536).ret =
          some true ∧
        removeTileCalls
          (unloadMap rm (loadMap k menv tenv s mapId 1 0).state mapId 0 65536).events =
          [tenv.tileRef] ∧
        (loadedTilesOf
          (unloadMap rm (loadMap k menv tenv s mapId 1 0).state mapId 0 65536).state
          mapId).find (packTileID 1 0) = none)) := by
  have halias : packTileID 0 65536 = packTileID 1 0 := by decide
  refine ⟨halias, packTileID_neg_one, ?_⟩
  intro hload
  obtain ⟨d, hd, ht⟩ := loadMap_ret_true_entry k menv tenv s mapId 1 0 hload
  constructor
  · exact loadMap_of_tile_loaded k menv2 tenv2 _ mapId 0 65536 d tenv.tileRef hd
      (halias ▸ ht)
  · intro hrm
    have ht' : d.mmapLoadedTiles.find (packTileID 0 65536) = some tenv.tileRef :=
      halias ▸ ht
    have hrun : unloadMap rm (loadMap k menv tenv s mapId 1 0).state mapId 0 65536 =
        ⟨[.removeTile d.navMesh tenv.tileRef rm, .log (.unloadMapUnloadedTile mapId 0 65536)],
         ⟨(loadMap k menv tenv s mapId 1 0).state.loadedMMaps.assign mapId
            { d with mmapLoadedTiles := d.mmapLoadedTiles.erase (packTileID 0 65536) },
          (loadMap k menv tenv s mapId 1 0).state.loadedTiles - 1⟩, some true⟩ := by
      simp [unloadMap, hd, ht', hrm]
    rw [hrun]
    refine ⟨rfl, by simp [removeTileCalls], ?_⟩
    simp only [loadedTilesOf, Table.find_assign_self _ _ _ _ hd]
    rw [halias]
    exact Table.find_erase_self _ _

/-- Witness of C18: on the empty manager tile (1, 0) of map 1 is loaded; the
load of tile (0, 65536) is refused and its unload removes the reference 9. -/
theorem C18_packTileID_aliasing_witness :
    (loadMap kSample menvGood tenvGood sEmpty 1 1 0).ret = some true ∧
    loadMap kSample menvNoFile tenvNoFile (loadMap kSample menvGood tenvGood sEmpty 1 1 0).state
      1 0 65536 = ⟨[], (loadMap kSample menvGood tenvGood sEmpty 1 1 0).state, some false⟩ ∧
    removeTileCalls
      (unloadMap stOk (loadMap kSample menvGood tenvGood sEmpty 1 1 0).state 1 0 65536).events
      = [9] :=
  ⟨by decide,
   ((C18_packTileID_aliasing kSample menvGood menvNoFile tenvGood tenvNoFile stOk sEmpty 1
      ).2.2 (by decide)).1,
   (((C18_packTileID_aliasing kSample menvGood menvNoFile tenvGood tenvNoFile stOk sEmpty 1
      ).2.2 (by decide)).2 rfl).2.1⟩

/-- C19 fails on the code at a short read.  Map 1 is loaded; the file of tile
(5, 7) has a good header announcing 8 bytes of payload but only 4 bytes follow
(and, second case, a header announcing 0 bytes).  `loadMap` allocates the
buffer 200, logs the bad-data line, closes the file and returns `false`; it
calls neither `addTile` nor `dtFree`, so the buffer is neither owned by the
mesh nor released.  The sibling failure exit after `addTile` does release it. -/
theorem C19_short_read_leaks_buffer :
    loadMap kSample menvNoFile ⟨some ⟨some ⟨0x4d4d4150, 4, 8⟩, 4, 5, 7⟩, some 200, stOk, 9⟩
        sNoTile 1 5 7 =
      ⟨[.fopen (.mmtile 1 5 7), .dtAlloc 8 (some 200), .log (.loadMapBadData 1 5 7),
        .fclose (.mmtile 1 5 7)], sNoTile, some false⟩ ∧
    leakedBuffers
      (loadMap kSample menvNoFile ⟨some ⟨some ⟨0x4d4d4150, 4, 8⟩, 4, 5, 7⟩, some 200, stOk, 9⟩
        sNoTile 1 5 7).events = [200] ∧
    loadMap kSample menvNoFile ⟨some ⟨some ⟨0x4d4d4150, 4, 0⟩, 16, 5, 7⟩, some 200, stOk, 9⟩
        sNoTile 1 5 7 =
      ⟨[.fopen (.mmtile 1 5 7), .dtAlloc 0 (some 200), .log (.loadMapBadData 1 5 7),
        .fclose (.mmtile 1 5 7)], sNoTile, some false⟩ ∧
    leakedBuffers
      (loadMap kSample menvNoFile ⟨some ⟨some ⟨0x4d4d4150, 4, 0⟩, 16, 5, 7⟩, some 200, stOk, 9⟩
        sNoTile 1 5 7).events = [200] ∧
    leakedBuffers
      (loadMap kSample menvNoFile ⟨tenvGood.file, some 200, stFail, 9⟩ sNoTile 1 5 7).events
      = [] ∧
    leakedBuffers (loadMap kSample menvNoFile tenvGood sNoTile 1 5 7).events = [] := by
  decide

/-- C20 (a failing `loadMap` may create the map's record): there are calls of
`loadMap` that return `false` and still leave a new record with an empty tile
set for a map that had none: the `.mmap` file is good while the tile file is
missing, or has a bad magic.  And for every `loadMap` that returns `false`, the
state is either unchanged or differs exactly by that new record of a map that
had none; every record that existed before is found unchanged (mesh, tile set,
queries) and the counter is unchanged. -/
theorem C20_failing_loadMap_frame :
    (sEmpty.loadedMMaps.find 1 = none ∧
      (loadMap kSample menvGood tenvNoFile sEmpty 1 5 7).ret = some false ∧
      (loadMap kSample menvGood tenvNoFile sEmpty 1 5 7).state.loadedMMaps.find 1 =
        some ⟨100, [], []⟩ ∧
      (loadMap kSample menvGood ⟨some ⟨some ⟨0, 4, 8⟩, 8, 5, 7⟩, some 200, stOk, 9⟩
        sEmpty 1 5 7).ret = some false ∧
      (loadMap kSample menvGood ⟨some ⟨some ⟨0, 4, 8⟩, 8, 5, 7⟩, some 200, stOk, 9⟩
        sEmpty 1 5 7).state.loadedMMaps.find 1 = some ⟨100, [], []⟩) ∧
    (∀ (k : Consts) (menv : MapDataEnv) (tenv : TileEnv) (s : MMapManager) (mapId : Nat)
        (x y : Int),
      (loadMap k menv tenv s mapId x y).ret = some false →
      ((loadMap k menv tenv s mapId x y).state = s ∨
        (s.loadedMMaps.find mapId = none ∧ ∃ mesh,
          (loadMap k menv tenv s mapId x y).state =
            ⟨(mapId, ⟨mesh, [], []⟩) :: s.loadedMMaps, s.loadedTiles⟩)) ∧
      (∀ m d, s.loadedMMaps.find m = some d →
        (loadMap k menv tenv s mapId x y).state.loadedMMaps.find m = some d) ∧
      (loadMap k menv tenv s mapId x y).state.loadedTiles = s.loadedTiles) := by
  refine ⟨by decide, ?_⟩
  intro k menv tenv s mapId x y hret
  have hst := loadMap_state_of_ret_ne_true k menv tenv s mapId x y (by rw [hret]; decide)
  rw [hst]
  refine ⟨loadMapData_state_cases menv s mapId, ?_, loadMapData_loadedTiles menv s mapId⟩
  intro m d hm
  rcases loadMapData_state_cases menv s mapId with h | ⟨hnone, mesh, h⟩
  · rw [h]; exact hm
  · rw [h]
    have hne : mapId ≠ m := by
      intro heq
      rw [heq, hm] at hnone
      exact Option.noConfusion hnone
    simp [Table.find, hne, hm]

/-- Witness of C20: map 1 holds one tile and the file of tile (6, 7) is
missing; the failing `loadMap` leaves the state as it is. -/
theorem C20_failing_loadMap_frame_witness :
    (loadMap kSample menvNoFile tenvNoFile sOneTile 1 6 7).ret = some false ∧
    (loadMap kSample menvNoFile tenvNoFile sOneTile 1 6 7).state.loadedMMaps.find 1 =
      some dOneTile ∧
    (loadMap kSample menvNoFile tenvNoFile sOneTile 1 6 7).state.loadedTiles = 1 :=
  ⟨by decide,
   (C20_failing_loadMap_frame.2 kSample menvNoFile tenvNoFile sOneTile 1 6 7 (by decide)).2.1
      1 dOneTile (by decide),
   (C20_failing_loadMap_frame.2 kSample menvNoFile tenvNoFile sOneTile 1 6 7 (by decide)).2.2⟩

end MMAP
